import Mathlib

/-!
# Verification of the AMP `FixedLayer` engine (`src/service/fixed-layer.js`)

A shallow embedding of the `FixedLayer` class.  DOM nodes are natural
numbers; the document is a parent map plus the set of connected nodes;
inline styles, attributes and class names are association lists; external
inputs (computed styles, layout metrics, the selector engine, the
stylesheet list, `compareDocumentPosition`) are supplied by an `Env`
record.  Exceptions thrown by host DOM operations are modelled with
`Except`; `setTimeout(() => { throw e; })` deferral is modelled by
appending the error to a `deferred` list on the world state.

Every definition in the first half of the file is translated from the
JavaScript source; the only exceptions are explicitly marked
`Modelled from the source comment` / spec contrast definitions.
-/

namespace AmpFixedLayer

/-! ## JavaScript numeric string parsing

`parseInt(s, 10)` skips leading whitespace, reads an optional sign and
then the longest run of decimal digits; it returns NaN (modelled as
`none`) when no digit is found.  `parseFloat` additionally accepts a
fractional part.  (Computed style values never carry an exponent, so the
exponent clause of `parseFloat` is irrelevant here and not modelled.) -/

def jsWhitespace (c : Char) : Bool :=
  c = ' ' || c = '\t' || c = '\n' || c = '\r' || c = '\x0c' || c = '\x0b'

def digitsToNat (ds : List Char) : Nat :=
  ds.foldl (fun a c => a * 10 + (c.toNat - '0'.toNat)) 0

/-- JS `parseInt(s, 10)`; `none` models NaN. -/
def jsParseInt (s : String) : Option Int :=
  let cs := s.toList.dropWhile jsWhitespace
  let (sign, cs) : Int × List Char :=
    match cs with
    | '-' :: r => (-1, r)
    | '+' :: r => (1, r)
    | _ => (1, cs)
  let ds := cs.takeWhile Char.isDigit
  if ds.isEmpty then none else some (sign * (digitsToNat ds : Int))

/-- JS `parseFloat(s)` on decimal (non-exponent) input; `none` models
NaN.  The result is represented exactly as a decimal fraction
`(n, k)` denoting `n / 10^k` (see `decValue`), which keeps every
comparison in kernel-reducible `Int`/`Nat` arithmetic. -/
def jsParseFloat (s : String) : Option (Int × Nat) :=
  let cs := s.toList.dropWhile jsWhitespace
  let (sign, cs) : Int × List Char :=
    match cs with
    | '-' :: r => (-1, r)
    | '+' :: r => (1, r)
    | _ => (1, cs)
  let ip := cs.takeWhile Char.isDigit
  let rest := cs.dropWhile Char.isDigit
  match rest with
  | '.' :: r =>
    let fp := r.takeWhile Char.isDigit
    if ip.isEmpty && fp.isEmpty then none
    else some (sign * ((digitsToNat ip : Int) * 10 ^ fp.length + digitsToNat fp), fp.length)
  | _ =>
    if ip.isEmpty then none else some (sign * (digitsToNat ip : Int), 0)

/-- The rational value denoted by a `jsParseFloat` result. -/
def decValue (p : Int × Nat) : ℚ :=
  (p.1 : ℚ) / (10 : ℚ) ^ p.2

/-! ## Measure phase -/

/-- The per-element data read in the measure phase: the computed-style
snapshot (`getComputedStyle`) together with the two layout reads
`offsetWidth` / `offsetHeight`. -/
structure ComputedStyle where
  position : String
  top : String
  bottom : String
  opacity : String
  visibility : String
  zIndex : String
  offsetWidth : Nat
  offsetHeight : Nat
deriving DecidableEq, Repr

/-- `FixedElementStateDef`: the ephemeral per-cycle measurement record. -/
structure FeState where
  fixed : Bool
  transferrable : Bool
  top : String
  zIndex : String
deriving DecidableEq, Repr

/-- `isAllowedCoord_(s)`: `!!s && parseInt(s, 10) == 0`.
An empty string is falsy; `NaN == 0` is false. -/
def isAllowedCoord (s : String) : Bool :=
  s ≠ "" && jsParseInt s = some 0

/-- Truthiness of `parseFloat(opacity) > 0` (false when NaN).  Since
`10^k > 0`, the value `n / 10^k` is positive exactly when `n` is. -/
def opacityPositive (s : String) : Bool :=
  match jsParseFloat s with
  | some p => 0 < p.1
  | none => false

/-- The body of the measure callback for one element (source lines
191-223): computes `isFixed`, `isTransferrable` and records the computed
`top` and `z-index` strings. -/
def computeFeState (c : ComputedStyle) : FeState :=
  let isFixed : Bool :=
    c.position = "fixed" && 0 < c.offsetWidth && 0 < c.offsetHeight
  let isTransferrable : Bool :=
    isFixed &&
    c.visibility ≠ "hidden" &&
    opacityPositive c.opacity &&
    c.offsetHeight < 300 &&
    (isAllowedCoord c.top || isAllowedCoord c.bottom)
  { fixed := isFixed
    transferrable := isTransferrable
    top := c.top
    zIndex := c.zIndex }

/-! ## Document model

Nodes are naturals.  `par` is the `parentElement` relation as an
association list (`(child, parent)`; absence means a null parent).
`conn` is the set of nodes connected to the document, i.e. the extension
of `document.contains`.  The engine only ever relocates single nodes
(tracked elements, placeholders, the overlay layer), so moving a node's
subtree along with it does not need to be modelled; connectivity of a
moved node is determined by the connectivity of its destination
position. -/

structure Dom where
  root : Nat
  par : List (Nat × Nat)
  conn : List Nat
deriving DecidableEq, Repr

def Dom.parentOf (d : Dom) (n : Nat) : Option Nat :=
  (d.par.find? (fun x => x.1 == n)).map (·.2)

def Dom.setPar (d : Dom) (n p : Nat) : Dom :=
  { d with par := (n, p) :: d.par.filter (fun x => x.1 != n) }

def Dom.clearPar (d : Dom) (n : Nat) : Dom :=
  { d with par := d.par.filter (fun x => x.1 != n) }

def Dom.connAdd (d : Dom) (n : Nat) : Dom :=
  { d with conn := n :: d.conn.filter (fun x => x != n) }

def Dom.connDel (d : Dom) (n : Nat) : Dom :=
  { d with conn := d.conn.filter (fun x => x != n) }

/-- `p.replaceChild(newC, oldC)`: `newC` takes `oldC`'s position under
`p`; `oldC` is detached.  The new child is connected exactly when the
parent is. -/
def Dom.replaceChild (d : Dom) (p newC oldC : Nat) : Dom :=
  let d' := (d.setPar newC p).clearPar oldC
  if p ∈ d.conn then (d'.connDel oldC).connAdd newC
  else (d'.connDel oldC).connDel newC

/-- `p.appendChild(c)`: `c` is (re)attached as a child of `p`. -/
def Dom.appendChild (d : Dom) (p c : Nat) : Dom :=
  let d' := d.setPar c p
  if p ∈ d.conn then d'.connAdd c else d'.connDel c

/-- `p.removeChild(c)`. -/
def Dom.removeChild (d : Dom) (_p c : Nat) : Dom :=
  (d.clearPar c).connDel c

/-! ## Engine state

`FixedElementDef` from the source.  `fixedNow` starts out absent
(JS `undefined`), hence `Option Bool`; note `undefined == b` is false
for both booleans, which is exactly `Option.some`-equality. -/

structure FixedElementDef where
  id : String
  element : Nat
  selectors : List String
  placeholder : Option Nat := none
  fixedNow : Option Bool := none
deriving DecidableEq, Repr

/-- The whole mutable state of one `FixedLayer` instance together with
the document it acts on.  `styles` holds inline styles (`element.style.X`
assignments and `setStyle` calls) as `(node, property, value)` triples;
`writes` is an append-only log of those same style writes, used to state
the idempotence property.  `deferred` collects errors re-thrown via
`setTimeout` (fire-and-report). -/
structure World where
  dom : Dom
  styles : List (Nat × String × String)
  attrs : List (Nat × String × String)
  classNames : List (Nat × String)
  paddingTop : Int
  transfer : Bool
  fixedLayer : Option Nat
  counter : Nat
  fixedElements : List FixedElementDef
  body : Nat
  nextNode : Nat
  deferred : List Nat
  writes : List (Nat × String × String)
deriving DecidableEq, Repr

def defer (w : World) (e : Nat) : World :=
  { w with deferred := w.deferred ++ [e] }

def getStyle (w : World) (n : Nat) (k : String) : String :=
  (((w.styles.find? (fun x => x.1 == n && x.2.1 == k)).map (·.2.2)).getD "")

def setStyleW (w : World) (n : Nat) (k v : String) : World :=
  { w with
    styles := (n, k, v) :: w.styles.filter (fun x => !(x.1 == n && x.2.1 == k))
    writes := w.writes ++ [(n, k, v)] }

def setAttr (w : World) (n : Nat) (k v : String) : World :=
  { w with attrs := (n, k, v) :: w.attrs.filter (fun x => !(x.1 == n && x.2.1 == k)) }

def getClass (w : World) (n : Nat) : String :=
  (((w.classNames.find? (fun x => x.1 == n)).map (·.2)).getD "")

def setClass (w : World) (n : Nat) (v : String) : World :=
  { w with classNames := (n, v) :: w.classNames.filter (fun x => x.1 != n) }

def replaceChildW (w : World) (p newC oldC : Nat) : World :=
  { w with dom := w.dom.replaceChild p newC oldC }

def appendChildW (w : World) (p c : Nat) : World :=
  { w with dom := w.dom.appendChild p c }

def removeChildW (w : World) (p c : Nat) : World :=
  { w with dom := w.dom.removeChild p c }

/-- Error code for a host `TypeError` (e.g. calling `replaceChild` on a
null `parentElement`). -/
def errTypeError : Nat := 1

/-- External inputs: computed styles and layout metrics per node, the
selector-match engine (`element.matches`/vendor versions; `none` models
a host with no matcher available), `document.querySelectorAll` (which
throws on a malformed selector), and `compareDocumentPosition`. -/
structure Env where
  cs : Nat → ComputedStyle
  matcher : Option (Dom → Nat → String → Except Nat Bool)
  query : String → Except Nat (List Nat)
  cdp : Nat → Nat → Nat

/-! ## Registry operations -/

/-- `setupFixedElement_(element, selector)` (source lines 264-286):
idempotent per element; an already tracked element accumulates the
selector, otherwise a fresh entry with id `'F' + counter_++` is
appended and the id is written onto the element. -/
def setupFixedElement (w : World) (element : Nat) (selector : String) : World :=
  match w.fixedElements.find? (fun fe => fe.element == element) with
  | some _ =>
    { w with fixedElements :=
        w.fixedElements.map (fun fe =>
          if fe.element == element then { fe with selectors := fe.selectors ++ [selector] }
          else fe) }
  | none =>
    let fixedId := "F" ++ toString w.counter
    let w := setAttr w element "i-amp-fixedid" fixedId
    { w with
      counter := w.counter + 1
      fixedElements := w.fixedElements ++
        [{ id := fixedId, element := element, selectors := [selector] }] }

/-- `removeFixedElement_(element)`: splice out the first entry whose
`element` matches. -/
def removeFirstFe : List FixedElementDef → Nat → List FixedElementDef
  | [], _ => []
  | fe :: rest, e => if fe.element = e then rest else fe :: removeFirstFe rest e

def removeFixedElement (w : World) (element : Nat) : World :=
  { w with fixedElements := removeFirstFe w.fixedElements element }

/-! ## `sortInDomOrder_`

Source line 309 tests
`fe1.element.compareDocumentPosition(fe2.element) & 0x0A != 0`.
In JavaScript `!=` binds tighter than `&`, so this parses as
`cdp & (0x0A != 0)`, i.e. `cdp & ToInt32(true)` = `cdp & 1`.
Bit 1 of `compareDocumentPosition` is DOCUMENT_POSITION_DISCONNECTED;
the PRECEDING (2) and CONTAINS (8) bits the comment says were meant are
never consulted. -/

def sortConditionValue (cdp : Nat) : Nat :=
  cdp &&& (if (0x0A : Nat) ≠ 0 then 1 else 0)

def sortCompare (env : Env) (fe1 fe2 : FixedElementDef) : Int :=
  if sortConditionValue (env.cdp fe1.element fe2.element) ≠ 0 then 1 else -1

/-- Modelled from the source comment (lines 306-308): the comparison the
code says it performs, `(cdp & 0x0A) != 0 ? 1 : -1`. -/
def intendedSortCompare (cdp : Nat) : Int :=
  if cdp &&& 0x0A ≠ 0 then 1 else -1

/-- A stable comparison sort (insertion sort): `a` is placed before `b`
whenever the comparator does not order `a` after `b`.  ECMA-262 leaves
`Array.prototype.sort` implementation-defined for inconsistent
comparators; since `sortCompare` returns `-1` for every pair of
connected elements, any comparison-based sort performs no reordering
that depends on document position. -/
def insertOrdered (le : α → α → Bool) (a : α) : List α → List α
  | [] => [a]
  | b :: bs => if le a b then a :: b :: bs else b :: insertOrdered le a bs

def jsSortBy (le : α → α → Bool) (l : List α) : List α :=
  l.foldr (insertOrdered le) []

def sortInDomOrder (env : Env) (w : World) : World :=
  { w with fixedElements :=
      jsSortBy (fun a b => sortCompare env a b ≤ 0) w.fixedElements }

/-! ## Selector matching -/

/-- `matches_(element, selector)` (source lines 405-420): pick whichever
vendor matcher the host provides; a thrown error is deferred
(`setTimeout(() => { throw e; })`) and the element is treated as
non-matching.  With no matcher available the result is `false`. -/
def matchesFn (env : Env) (w : World) (element : Nat) (selector : String) : World × Bool :=
  match env.matcher with
  | none => (w, false)
  | some m =>
    match m w.dom element selector with
    | .ok b => (w, b)
    | .error e => (defer w e, false)

/-- `fe.selectors.some(selector => this.matches_(element, selector))`. -/
def someMatches (env : Env) (w : World) (element : Nat) : List String → World × Bool
  | [] => (w, false)
  | s :: rest =>
    let (w, b) := matchesFn env w element s
    if b then (w, true) else someMatches env w element rest

/-! ## `returnFromFixedLayer_`

The function reads the `placeholder` and `element` properties of its
argument.  It is called both with a `FixedElementDef` (from the update
cycle) and — in `removeElement` — with a raw DOM `Element`, whose
`placeholder` property is `undefined`.  `FeView` captures the dynamic
property access. -/

structure FeView where
  placeholder : Option Nat
  element : Option Nat

def FixedElementDef.view (fe : FixedElementDef) : FeView :=
  { placeholder := fe.placeholder, element := some fe.element }

/-- A raw DOM element has neither a `placeholder` nor an `element`
property; both reads yield `undefined`. -/
def elemView (_e : Nat) : FeView :=
  { placeholder := none, element := none }

/-- Source lines 426-439.  `!fe.placeholder || !doc.contains(placeholder)`
returns early; otherwise, if the element is still in the document its
transfer z-index is reset and it is swapped back into the placeholder's
position, else the placeholder is discarded. -/
def returnFromFixedLayerV (w : World) (v : FeView) : Except (Nat × World) World :=
  match v.placeholder with
  | none => .ok w
  | some ph =>
    if ph ∈ w.dom.conn then
      match v.element with
      | none => .error (errTypeError, w)
      | some el =>
        if el ∈ w.dom.conn then
          let w := if getStyle w el "zIndex" ≠ "" then setStyleW w el "zIndex" "" else w
          match w.dom.parentOf ph with
          | none => .error (errTypeError, w)
          | some p => .ok (replaceChildW w p el ph)
        else
          match w.dom.parentOf ph with
          | none => .error (errTypeError, w)
          | some p => .ok (removeChildW w p ph)
    else .ok w

def returnFromFixedLayer (w : World) (fe : FixedElementDef) : Except (Nat × World) World :=
  returnFromFixedLayerV w fe.view

/-! ## Overlay layer -/

/-- `getFixedLayer_()` (source lines 444-478): lazily creates the layer
as a fully reset `body` sibling appended to the document element.
Returns `null` while transfer is disabled. -/
def getFixedLayer (w : World) : World × Option Nat :=
  if !w.transfer || w.fixedLayer.isSome then (w, w.fixedLayer)
  else
    let f := w.nextNode
    let w := { w with nextNode := f + 1, fixedLayer := some f }
    let w := setAttr w f "id" "-amp-fixedlayer"
    let w := [("position", "absolute"), ("top", "0"), ("left", "0"),
              ("height", "0"), ("width", "0"), ("pointerEvents", "none"),
              ("overflow", "hidden"), ("animation", "none"), ("background", "none"),
              ("border", "none"), ("borderImage", "none"), ("boxSizing", "border-box"),
              ("boxShadow", "none"), ("display", "block"), ("float", "none"),
              ("margin", "0"), ("opacity", "1"), ("outline", "none"),
              ("padding", "none"), ("transform", "none"), ("transition", "none"),
              ("visibility", "visible")].foldl (fun w kv => setStyleW w f kv.1 kv.2) w
    let w := appendChildW w w.dom.root f
    (w, some f)

/-! ## Transfer -/

/-- The placeholder-ensure step of `transferToFixedLayer_` (source
lines 377-383): on first transfer, configure pointer events, create the
placeholder, correlate it by id and hide it. -/
def ensurePlaceholder (w : World) (fe : FixedElementDef) : World × FixedElementDef :=
  match fe.placeholder with
  | some _ => (w, fe)
  | none =>
    let w := setStyleW w fe.element "pointer-events" "initial"
    let ph := w.nextNode
    let w := { w with nextNode := ph + 1 }
    let w := setAttr w ph "i-amp-fixedid" fe.id
    let w := setStyleW w ph "display" "none"
    (w, { fe with placeholder := some ph })

/-- The tail of `transferToFixedLayer_` (source lines 385-397):
synthetic z-index assignment, the structural move, and the post-move
re-match with immediate reversal on no match.  Note `state.zIndex || 0`:
only the empty string is falsy, so a computed `z-index` of `"auto"` is
interpolated as written. -/
def transferMove (env : Env) (w : World) (fe : FixedElementDef)
    (index : Nat) (st : FeState) :
    Except (Nat × World × FixedElementDef) (World × FixedElementDef) :=
  let zdecl := if st.zIndex ≠ "" then st.zIndex else "0"
  let w := setStyleW w fe.element "zIndex"
    ("calc(" ++ toString (10000 + index) ++ " + " ++ zdecl ++ ")")
  match w.dom.parentOf fe.element, fe.placeholder with
  | none, _ => .error (errTypeError, w, fe)
  | _, none => .error (errTypeError, w, fe)
  | some p, some ph =>
    let w := replaceChildW w p ph fe.element
    let (w, fl) := getFixedLayer w
    match fl with
    | none => .error (errTypeError, w, fe)
    | some f =>
      let w := appendChildW w f fe.element
      let (w, ms) := someMatches env w fe.element fe.selectors
      if ms then .ok (w, fe)
      else
        match returnFromFixedLayer w fe with
        | .ok w' => .ok (w', fe)
        | .error (e, w') => .error (e, w', fe)

/-- `transferToFixedLayer_(fe, index, state)` (source lines 367-398). -/
def transferToFixedLayer (env : Env) (w : World) (fe : FixedElementDef)
    (index : Nat) (st : FeState) :
    Except (Nat × World × FixedElementDef) (World × FixedElementDef) :=
  if w.dom.parentOf fe.element = w.fixedLayer then .ok (w, fe)
  else
    let (w, fe) := ensurePlaceholder w fe
    transferMove env w fe index st

/-- `mutateFixedElement_(fe, index, state)` (source lines 327-359).
The latch: `fe.fixedNow` starts as `undefined`, and `undefined == b` is
false for either boolean, so the early return fires exactly when
`fe.fixedNow = some state.fixed`. -/
def mutateFixedElement (env : Env) (w : World) (fe : FixedElementDef)
    (index : Nat) (st : FeState) :
    Except (Nat × World × FixedElementDef) (World × FixedElementDef) :=
  if fe.fixedNow = some st.fixed then .ok (w, fe)
  else
    let fe := { fe with fixedNow := some st.fixed }
    if st.fixed then
      let w :=
        if st.top ≠ "" then
          setStyleW w fe.element "top"
            ("calc(" ++ st.top ++ " + " ++ toString w.paddingTop ++ "px)")
        else w
      if w.transfer then
        if st.transferrable then transferToFixedLayer env w fe index st
        else
          match returnFromFixedLayer w fe with
          | .ok w' => .ok (w', fe)
          | .error (e, w') => .error (e, w', fe)
      else .ok (w, fe)
    else
      let w :=
        if getStyle w fe.element "top" ≠ "" then setStyleW w fe.element "top" ""
        else w
      match returnFromFixedLayer w fe with
      | .ok w' => .ok (w', fe)
      | .error (e, w') => .error (e, w', fe)

/-! ## The update cycle -/

/-- The measure callback: walks the registry building the per-cycle
state map keyed by id (later entries shadow earlier ones, as JS object
assignment does) and the `hasTransferables` flag. -/
def measureAux (env : Env) :
    List FixedElementDef → List (String × FeState) → Bool →
    List (String × FeState) × Bool
  | [], acc, ht => (acc, ht)
  | fe :: rest, acc, ht =>
    let st := computeFeState (env.cs fe.element)
    measureAux env rest ((fe.id, st) :: acc) (ht || st.transferrable)

def measurePhase (env : Env) (fes : List FixedElementDef) :
    List (String × FeState) × Bool :=
  measureAux env fes [] false

/-- The `forEach((fe, i) => ...)` of the mutate callback.  A thrown
error aborts the remaining iterations (JS `forEach` does not catch);
the partially mutated registry is retained. -/
def mutateLoop (env : Env) (sm : List (String × FeState)) :
    World → List FixedElementDef → Nat → World × List FixedElementDef × Option Nat
  | w, [], _ => (w, [], none)
  | w, fe :: rest, i =>
    match sm.lookup fe.id with
    | none =>
      let (w', rest', err) := mutateLoop env sm w rest (i + 1)
      (w', fe :: rest', err)
    | some st =>
      match mutateFixedElement env w fe i st with
      | .ok (w', fe') =>
        let (w'', rest', err) := mutateLoop env sm w' rest (i + 1)
        (w'', fe' :: rest', err)
      | .error (e, w', fe') => (w', fe' :: rest, some e)

/-- Source lines 227-232: when there are transferables and transfer is
enabled, the overlay layer's class list is mirrored from `body`. -/
def classNameStep (w : World) (ht : Bool) : World :=
  if ht && w.transfer then
    let (w', fl) := getFixedLayer w
    match fl with
    | some f =>
      if getClass w' f ≠ getClass w' w'.body then setClass w' f (getClass w' w'.body)
      else w'
    | none => w'
  else w

def mutatePhase (env : Env) (w : World) (sm : List (String × FeState)) (ht : Bool) :
    World × Option Nat :=
  let w := classNameStep w ht
  let (w', fes', err) := mutateLoop env sm w w.fixedElements 0
  ({ w' with fixedElements := fes' }, err)

/-- `update()` (source lines 170-244): early exit on an empty registry,
lazy pruning of detached elements, then one measure phase followed by
one mutate phase (the `vsync.runPromise` contract).  The second
component is the error that rejected the cycle, if any. -/
def updateE (env : Env) (w : World) : World × Option Nat :=
  if w.fixedElements.length = 0 then (w, none)
  else
    let toRemove := w.fixedElements.filter (fun fe => !w.dom.conn.contains fe.element)
    let w := toRemove.foldl (fun acc fe => removeFixedElement acc fe.element) w
    let (sm, ht) := measurePhase env w.fixedElements
    mutatePhase env w sm ht

/-- `update()` as seen by callers: a rejected cycle is caught and its
error re-thrown asynchronously (`.catch` at line 240). -/
def update (env : Env) (w : World) : World :=
  match updateE env w with
  | (w', none) => w'
  | (w', some e) => defer w' e

/-! ## Discovery (`setup`) -/

structure StyleOwner where
  tagName : String
  ampBoilerplate : Bool
  ampRuntime : Bool
  ampExtension : Bool
deriving DecidableEq, Repr

mutual
inductive CSSRule where
  | styleRule (selectorText : String) (position : String)
  | mediaRule (rules : CSSRules)
  | supportsRule (rules : CSSRules)
  | otherRule

/-- The `cssRules` collection of a rule container. -/
inductive CSSRules where
  | nil
  | cons (r : CSSRule) (rs : CSSRules)
end

structure Stylesheet where
  disabled : Bool
  ownerNode : Option StyleOwner
  cssRules : CSSRules

/-! `discoverFixedSelectors_` (source lines 485-498): depth-first walk
over style rules (type 1), media rules (type 4) and supports rules
(type 12), collecting `selectorText` of rules whose declared position is
fixed, excluding the universal selector. -/
mutual
def discoverRule : CSSRule → List String → List String
  | .styleRule sel pos, acc => if sel ≠ "*" && pos = "fixed" then acc ++ [sel] else acc
  | .mediaRule rs, acc => discoverRules rs acc
  | .supportsRule rs, acc => discoverRules rs acc
  | .otherRule, acc => acc

def discoverRules : CSSRules → List String → List String
  | .nil, acc => acc
  | .cons r rest, acc => discoverRules rest (discoverRule r acc)
end

/-- The registration loop body in `setup` (source lines 102-111): at
most indices 0 through 10 of a selector's matches are registered
(`if (i > 10) break`). -/
def regInner (sel : String) : World → List Nat → Nat → World
  | w, [], _ => w
  | w, e :: rest, i =>
    if i > 10 then w else regInner sel (setupFixedElement w e sel) rest (i + 1)

/-- The `fixedSelectors.forEach` with its surrounding `try`: the first
selector whose `querySelectorAll` throws aborts the whole loop; the
error is returned for deferral. -/
def regLoop (env : Env) : World → List String → World × Option Nat
  | w, [] => (w, none)
  | w, sel :: rest =>
    match env.query sel with
    | .error e => (w, some e)
    | .ok elements => regLoop env (regInner sel w elements 0) rest

/-- `setup()` (source lines 80-128): skip disabled, unowned, non-STYLE
and amp-internal stylesheets; discover fixed selectors; register up to
11 matches per selector under a single try/catch whose error is
deferred; sort; run one update cycle.  (The `platform.isIos()` console
warning has no state effect and is not modelled.) -/
def setup (env : Env) (stylesheets : List Stylesheet) (w : World) : World :=
  let fixedSelectors := stylesheets.foldl (fun acc ss =>
    if ss.disabled then acc
    else
      match ss.ownerNode with
      | none => acc
      | some o =>
        if o.tagName ≠ "STYLE" || o.ampBoilerplate || o.ampRuntime || o.ampExtension then acc
        else discoverRules ss.cssRules acc) []
  let (w, err) := regLoop env w fixedSelectors
  let w := match err with | some e => defer w e | none => w
  let w := sortInDomOrder env w
  update env w

/-! ## Public entry points -/

/-- `updatePaddingTop(paddingTop)` (source lines 135-138). -/
def updatePaddingTop (env : Env) (paddingTop : Int) (w : World) : World :=
  update env { w with paddingTop := paddingTop }

/-- `addElement(element)` (source lines 144-148): register with the
universal selector, re-sort, run a cycle. -/
def addElement (env : Env) (w : World) (element : Nat) : World :=
  update env (sortInDomOrder env (setupFixedElement w element "*"))

/-- `removeElement(element)` (source lines 154-161): unregister, then —
if the overlay exists — schedule `returnFromFixedLayer_(element)`.
The scheduled callback receives the *raw DOM element* where a
`FixedElementDef` is expected (see the `@param` annotation at line 423),
so its `placeholder` property reads as `undefined` (`elemView`).
The `vsync.mutate` deferral is modelled by running the callback before
returning. -/
def removeElement (w : World) (element : Nat) : World :=
  let w := removeFixedElement w element
  if w.fixedLayer.isSome then
    match returnFromFixedLayerV w (elemView element) with
    | .ok w' => w'
    | .error (e, w') => defer w' e
  else w

/-- `setVisible(visible)` (source lines 68-75). -/
def setVisible (w : World) (visible : Bool) : World :=
  match w.fixedLayer with
  | some f => setStyleW w f "visibility" (if visible then "visible" else "hidden")
  | none => w

/-- A fresh `FixedLayer` instance (the constructor) over a given
document. -/
def initWorld (dom : Dom) (body : Nat) (paddingTop : Int) (transfer : Bool)
    (nextNode : Nat) : World :=
  { dom := dom, styles := [], attrs := [], classNames := [],
    paddingTop := paddingTop, transfer := transfer, fixedLayer := none,
    counter := 0, fixedElements := [], body := body, nextNode := nextNode,
    deferred := [], writes := [] }

/-! ## Concrete scenarios

A small document: `0` is the document element, `1` is `body`, `2` is an
authored element under `body`.  Node ids from `3` upward are allocated
by the engine (`nextNode`). -/

def staticCS : ComputedStyle :=
  { position := "static", top := "auto", bottom := "auto", opacity := "1",
    visibility := "visible", zIndex := "auto", offsetWidth := 10, offsetHeight := 50 }

def fixedCS : ComputedStyle :=
  { position := "fixed", top := "0px", bottom := "auto", opacity := "1",
    visibility := "visible", zIndex := "1", offsetWidth := 10, offsetHeight := 50 }

def dom0 : Dom := { root := 0, par := [(1, 0), (2, 1)], conn := [0, 1, 2] }

/-- Transfer-enabled instance over `dom0`. -/
def w0T : World := initWorld dom0 1 0 true 3

/-- Element 2 is computed fixed and transferrable; the host matcher
matches everything. -/
def envFixed : Env :=
  { cs := fun n => if n = 2 then fixedCS else staticCS
    matcher := some (fun _ _ _ => .ok true)
    query := fun _ => .ok []
    cdp := fun _ _ => 4 }

/-- Same host, but element 2 now computes as `position: static`. -/
def envStatic : Env :=
  { envFixed with cs := fun _ => staticCS }

/-- `addElement(2)` on the fresh instance: element 2 is registered,
measured fixed + transferrable, and transferred into the overlay layer
(node 3), leaving placeholder 4 in its place under `body`. -/
def wTransferred : World := addElement envFixed w0T 2

/-- `removeElement(2)` on the transferred state. -/
def wRemoved : World := removeElement wTransferred 2

/-- Re-register element 2 (still sitting in the overlay) and run a
cycle in which it computes as non-fixed. -/
def wReAdded : World := addElement envStatic wRemoved 2

/-! ### Padding scenario (claim C2) -/

/-- Transfer-disabled instance with a reserved inset of 10px. -/
def wPadBase : World := initWorld dom0 1 10 false 3

def envPad : Env :=
  { cs := fun n => if n = 2 then fixedCS else staticCS
    matcher := none
    query := fun _ => .ok []
    cdp := fun _ _ => 4 }

/-- Element 2 registered and observed fixed under inset 10: its top
becomes `calc(0px + 10px)`. -/
def wPadApplied : World := addElement envPad wPadBase 2

/-- `updatePaddingTop(20)` with element 2 still computing as fixed. -/
def wPadUpdated : World := updatePaddingTop envPad 20 wPadApplied

/-! ### Sort scenario (claim C3)

Elements 5 and 6 are siblings under `body`, with 5 preceding 6 in
document order; they are registered in reverse order.
`compareDocumentPosition` reports bit 2 (PRECEDING) for `cdp 6 5` and
bit 4 (FOLLOWING) for `cdp 5 6`. -/

def domRev : Dom := { root := 0, par := [(1, 0), (5, 1), (6, 1)], conn := [0, 1, 5, 6] }

def envRev : Env :=
  { cs := fun _ => staticCS
    matcher := none
    query := fun _ => .ok []
    cdp := fun a b => if a = 6 && b = 5 then 2 else if a = 5 && b = 6 then 4 else 0 }

def wRevBase : World :=
  setupFixedElement (setupFixedElement (initWorld domRev 1 0 false 7) 6 "s") 5 "s"

def wRevSorted : World := sortInDomOrder envRev wRevBase

/-! ### Discovery failure scenario (claim C4)

Two authored stylesheets: the first contributes a good selector and
then a malformed one (its `querySelectorAll` throws error 7), the
second — a different stylesheet — contributes a selector matching
element 5. -/

def authoredOwner : StyleOwner :=
  { tagName := "STYLE", ampBoilerplate := false, ampRuntime := false, ampExtension := false }

def ssSheets : List Stylesheet :=
  [ { disabled := false, ownerNode := some authoredOwner,
      cssRules := .cons (.styleRule "sGood1" "fixed") (.cons (.styleRule "sBad" "fixed") .nil) },
    { disabled := false, ownerNode := some authoredOwner,
      cssRules := .cons (.styleRule "sGood2" "fixed") .nil } ]

def domSheets : Dom := { root := 0, par := [(1, 0), (2, 1), (5, 1)], conn := [0, 1, 2, 5] }

def envSheets : Env :=
  { cs := fun _ => staticCS
    matcher := none
    query := fun s =>
      if s = "sGood1" then .ok [2]
      else if s = "sGood2" then .ok [5]
      else .error 7
    cdp := fun _ _ => 4 }

def wSheets : World := setup envSheets ssSheets (initWorld domSheets 1 0 false 6)

/-! ### Cycle failure scenario (claim C4)

`html { position: fixed }`: the document element itself is registered
and measures transferrable, so the mutate phase calls
`element.parentElement.replaceChild(...)` on a null `parentElement`,
rejecting the cycle; the error is deferred and the next cycle runs
normally. -/

def ssRoot : List Stylesheet :=
  [ { disabled := false, ownerNode := some authoredOwner,
      cssRules := .cons (.styleRule "html" "fixed") .nil } ]

def domRoot : Dom := { root := 0, par := [(1, 0)], conn := [0, 1] }

def envRoot : Env :=
  { cs := fun n => if n = 0 then fixedCS else staticCS
    matcher := some (fun _ _ _ => .ok true)
    query := fun s => if s = "html" then .ok [0] else .ok []
    cdp := fun _ _ => 4 }

def envRootStatic : Env := { envRoot with cs := fun _ => staticCS }

def wRootCycle : World := setup envRoot ssRoot (initWorld domRoot 1 0 true 3)

def wRootNext : World := update envRootStatic wRootCycle

/-! ### Discovery cap scenario (claim C7)

One selector matching fifteen elements (nodes 10 through 24, all under
`body`). -/

def ssCap : List Stylesheet :=
  [ { disabled := false, ownerNode := some authoredOwner,
      cssRules := .cons (.styleRule "scap" "fixed") .nil } ]

def domCap : Dom :=
  { root := 0
    par := (1, 0) :: (List.range 15).map (fun i => (10 + i, 1))
    conn := 0 :: 1 :: (List.range 15).map (fun i => 10 + i) }

def envCap : Env :=
  { cs := fun _ => staticCS
    matcher := none
    query := fun s => if s = "scap" then .ok ((List.range 15).map (fun i => 10 + i)) else .ok []
    cdp := fun _ _ => 4 }

def wCap : World := setup envCap ssCap (initWorld domCap 1 0 false 30)

/-! ### Abstract single-element worlds (witnesses for C6, C8, C10) -/

/-- A world with one tracked element (2, under body 1) and an existing
overlay layer (3, under the root); node 4 is the next allocation. -/
def wOverlay : World :=
  { dom := { root := 0, par := [(1, 0), (2, 1), (3, 0)], conn := [0, 1, 2, 3] }
    styles := [], attrs := [], classNames := [], paddingTop := 0,
    transfer := true, fixedLayer := some 3, counter := 1,
    fixedElements := [{ id := "F0", element := 2, selectors := ["div.x"],
                        placeholder := none, fixedNow := none }],
    body := 1, nextNode := 4, deferred := [], writes := [] }

def feOverlay : FixedElementDef :=
  { id := "F0", element := 2, selectors := ["div.x"], placeholder := none, fixedNow := none }

def stOverlay : FeState := { fixed := true, transferrable := true, top := "0px", zIndex := "1" }

/-- A host whose matcher rejects every selector (post-transfer re-match
fails). -/
def envNoMatch : Env :=
  { cs := fun _ => fixedCS
    matcher := some (fun _ _ _ => .ok false)
    query := fun _ => .ok []
    cdp := fun _ _ => 4 }

/-- A host whose matcher accepts every selector (in particular `*`). -/
def envAllMatch : Env :=
  { cs := fun _ => fixedCS
    matcher := some (fun _ _ _ => .ok true)
    query := fun _ => .ok []
    cdp := fun _ _ => 4 }

/-- Idempotence witness scenario: one tracked element, transfer
disabled, element computes as static. -/
def wIdem : World := setupFixedElement (initWorld dom0 1 0 false 3) 2 "div.y"

def envIdem : Env :=
  { cs := fun _ => staticCS
    matcher := none
    query := fun _ => .ok []
    cdp := fun _ _ => 4 }

/-- Like `feOverlay` but registered through `addElement`, hence with
the universal selector. -/
def feStar : FixedElementDef :=
  { id := "F0", element := 2, selectors := ["*"], placeholder := none, fixedNow := none }

/-- A host whose matcher throws (error 9) on every call. -/
def envErrMatch : Env :=
  { cs := fun _ => staticCS
    matcher := some (fun _ _ _ => .error 9)
    query := fun _ => .ok []
    cdp := fun _ _ => 4 }

/-- A computed style that is fixed, visible, opaque, 50px tall, with a
*non-zero* top offset of half a device pixel. -/
def cHalfTop : ComputedStyle := { fixedCS with top := "0.5px", zIndex := "auto" }

/-! ## Proof infrastructure -/

/-- The world fields the mutate phase never alters: class list, `body`,
the transfer flag, and — once created — the overlay layer handle.
(Used to relate successive update cycles.) -/
def FPres (w w' : World) : Prop :=
  w'.classNames = w.classNames ∧ w'.body = w.body ∧ w'.transfer = w.transfer ∧
  (∀ f, w.fixedLayer = some f → w'.fixedLayer = some f)

/-! # Theorems -/

theorem FPres.refl (w : World) : FPres w w :=
  ⟨rfl, rfl, rfl, fun _ h => h⟩

theorem FPres.trans {w₁ w₂ w₃ : World} (h1 : FPres w₁ w₂) (h2 : FPres w₂ w₃) :
    FPres w₁ w₃ :=
  ⟨h2.1.trans h1.1, h2.2.1.trans h1.2.1, h2.2.2.1.trans h1.2.2.1,
   fun f hf => h2.2.2.2 f (h1.2.2.2 f hf)⟩

/-! ## Store lemmas -/

theorem find?_fst_filter {β : Type} (l : List (Nat × β)) (n m : Nat) (h : m ≠ n) :
    (l.filter (fun x => x.1 != n)).find? (fun x => x.1 == m) =
      l.find? (fun x => x.1 == m) := by
  induction l with
  | nil => rfl
  | cons x xs ih =>
    by_cases hx : x.1 = n
    · have h1 : (x.1 != n) = false := by simp [hx]
      have h2 : (x.1 == m) = false := by simp [hx]; exact fun hh => h hh.symm
      simp [List.filter_cons, h1, List.find?_cons, h2, ih]
    · have h1 : (x.1 != n) = true := by simp [hx]
      simp only [List.filter_cons, h1, if_true, List.find?_cons]
      cases hxm : (x.1 == m) <;> simp [ih]

theorem find?_style_filter (l : List (Nat × String × String)) (n m : Nat) (k j : String)
    (h : ¬(m = n ∧ j = k)) :
    (l.filter (fun x => !(x.1 == n && x.2.1 == k))).find?
        (fun x => x.1 == m && x.2.1 == j) =
      l.find? (fun x => x.1 == m && x.2.1 == j) := by
  induction l with
  | nil => rfl
  | cons x xs ih =>
    by_cases hx : x.1 = n ∧ x.2.1 = k
    · have h1 : (!(x.1 == n && x.2.1 == k)) = false := by simp [hx.1, hx.2]
      have h2 : (x.1 == m && x.2.1 == j) = false := by
        by_cases hm : x.1 = m ∧ x.2.1 = j
        · exact absurd ⟨hm.1.symm.trans hx.1, hm.2.symm.trans hx.2⟩ h
        · rcases not_and_or.mp hm with h' | h' <;> simp [h']
      rw [List.filter_cons, h1, if_neg (by simp), List.find?_cons, h2, ih]
    · have h1 : (!(x.1 == n && x.2.1 == k)) = true := by
        simp only [Bool.not_eq_true', Bool.and_eq_false_iff]
        by_cases hxn : x.1 = n
        · right; simp only [beq_eq_false_iff_ne, ne_eq]; exact fun hk => hx ⟨hxn, hk⟩
        · left; simp [hxn]
      rw [List.filter_cons, h1, if_pos rfl, List.find?_cons, List.find?_cons, ih]

/-! Projection facts: each store operation touches only its own store. -/

@[simp] theorem setStyleW_dom (w : World) (n : Nat) (k v : String) :
    (setStyleW w n k v).dom = w.dom := rfl
@[simp] theorem setStyleW_fixedLayer (w : World) (n : Nat) (k v : String) :
    (setStyleW w n k v).fixedLayer = w.fixedLayer := rfl
@[simp] theorem setStyleW_nextNode (w : World) (n : Nat) (k v : String) :
    (setStyleW w n k v).nextNode = w.nextNode := rfl
@[simp] theorem setStyleW_transfer (w : World) (n : Nat) (k v : String) :
    (setStyleW w n k v).transfer = w.transfer := rfl
@[simp] theorem setStyleW_fixedElements (w : World) (n : Nat) (k v : String) :
    (setStyleW w n k v).fixedElements = w.fixedElements := rfl
@[simp] theorem setStyleW_classNames (w : World) (n : Nat) (k v : String) :
    (setStyleW w n k v).classNames = w.classNames := rfl
@[simp] theorem setStyleW_body (w : World) (n : Nat) (k v : String) :
    (setStyleW w n k v).body = w.body := rfl
@[simp] theorem setStyleW_paddingTop (w : World) (n : Nat) (k v : String) :
    (setStyleW w n k v).paddingTop = w.paddingTop := rfl

@[simp] theorem setAttr_dom (w : World) (n : Nat) (k v : String) :
    (setAttr w n k v).dom = w.dom := rfl
@[simp] theorem setAttr_styles (w : World) (n : Nat) (k v : String) :
    (setAttr w n k v).styles = w.styles := rfl
@[simp] theorem setAttr_fixedLayer (w : World) (n : Nat) (k v : String) :
    (setAttr w n k v).fixedLayer = w.fixedLayer := rfl
@[simp] theorem setAttr_nextNode (w : World) (n : Nat) (k v : String) :
    (setAttr w n k v).nextNode = w.nextNode := rfl
@[simp] theorem setAttr_transfer (w : World) (n : Nat) (k v : String) :
    (setAttr w n k v).transfer = w.transfer := rfl
@[simp] theorem setAttr_fixedElements (w : World) (n : Nat) (k v : String) :
    (setAttr w n k v).fixedElements = w.fixedElements := rfl
@[simp] theorem setAttr_classNames (w : World) (n : Nat) (k v : String) :
    (setAttr w n k v).classNames = w.classNames := rfl
@[simp] theorem setAttr_body (w : World) (n : Nat) (k v : String) :
    (setAttr w n k v).body = w.body := rfl
@[simp] theorem setAttr_writes (w : World) (n : Nat) (k v : String) :
    (setAttr w n k v).writes = w.writes := rfl
@[simp] theorem setAttr_paddingTop (w : World) (n : Nat) (k v : String) :
    (setAttr w n k v).paddingTop = w.paddingTop := rfl

@[simp] theorem replaceChildW_styles (w : World) (p a b : Nat) :
    (replaceChildW w p a b).styles = w.styles := rfl
@[simp] theorem replaceChildW_fixedLayer (w : World) (p a b : Nat) :
    (replaceChildW w p a b).fixedLayer = w.fixedLayer := rfl
@[simp] theorem replaceChildW_nextNode (w : World) (p a b : Nat) :
    (replaceChildW w p a b).nextNode = w.nextNode := rfl
@[simp] theorem replaceChildW_dom (w : World) (p a b : Nat) :
    (replaceChildW w p a b).dom = w.dom.replaceChild p a b := rfl
@[simp] theorem appendChildW_styles (w : World) (p c : Nat) :
    (appendChildW w p c).styles = w.styles := rfl
@[simp] theorem appendChildW_fixedLayer (w : World) (p c : Nat) :
    (appendChildW w p c).fixedLayer = w.fixedLayer := rfl
@[simp] theorem appendChildW_dom (w : World) (p c : Nat) :
    (appendChildW w p c).dom = w.dom.appendChild p c := rfl
@[simp] theorem removeChildW_styles (w : World) (p c : Nat) :
    (removeChildW w p c).styles = w.styles := rfl
@[simp] theorem removeChildW_dom (w : World) (p c : Nat) :
    (removeChildW w p c).dom = w.dom.removeChild p c := rfl
@[simp] theorem appendChildW_classNames (w : World) (p c : Nat) :
    (appendChildW w p c).classNames = w.classNames := rfl
@[simp] theorem appendChildW_body (w : World) (p c : Nat) :
    (appendChildW w p c).body = w.body := rfl
@[simp] theorem appendChildW_transfer (w : World) (p c : Nat) :
    (appendChildW w p c).transfer = w.transfer := rfl
@[simp] theorem appendChildW_fixedElements (w : World) (p c : Nat) :
    (appendChildW w p c).fixedElements = w.fixedElements := rfl
@[simp] theorem replaceChildW_classNames (w : World) (p a b : Nat) :
    (replaceChildW w p a b).classNames = w.classNames := rfl
@[simp] theorem replaceChildW_body (w : World) (p a b : Nat) :
    (replaceChildW w p a b).body = w.body := rfl
@[simp] theorem replaceChildW_transfer (w : World) (p a b : Nat) :
    (replaceChildW w p a b).transfer = w.transfer := rfl
@[simp] theorem replaceChildW_fixedElements (w : World) (p a b : Nat) :
    (replaceChildW w p a b).fixedElements = w.fixedElements := rfl

/-- The bulk `setStyles` fold of `getFixedLayer_` changes only the style
store and the write log. -/
theorem foldl_setStyleW_pres (l : List (String × String)) (w : World) (n : Nat) :
    (l.foldl (fun w kv => setStyleW w n kv.1 kv.2) w).classNames = w.classNames ∧
    (l.foldl (fun w kv => setStyleW w n kv.1 kv.2) w).body = w.body ∧
    (l.foldl (fun w kv => setStyleW w n kv.1 kv.2) w).transfer = w.transfer ∧
    (l.foldl (fun w kv => setStyleW w n kv.1 kv.2) w).fixedLayer = w.fixedLayer ∧
    (l.foldl (fun w kv => setStyleW w n kv.1 kv.2) w).fixedElements = w.fixedElements := by
  induction l generalizing w with
  | nil => exact ⟨rfl, rfl, rfl, rfl, rfl⟩
  | cons kv rest ih => exact ih (setStyleW w n kv.1 kv.2)

@[simp] theorem getStyle_replaceChildW (w : World) (p a b n : Nat) (k : String) :
    getStyle (replaceChildW w p a b) n k = getStyle w n k := rfl
@[simp] theorem getStyle_appendChildW (w : World) (p c n : Nat) (k : String) :
    getStyle (appendChildW w p c) n k = getStyle w n k := rfl
@[simp] theorem getStyle_setAttr (w : World) (a : Nat) (x y : String) (n : Nat) (k : String) :
    getStyle (setAttr w a x y) n k = getStyle w n k := rfl

theorem getStyle_setStyleW_same (w : World) (n : Nat) (k v : String) :
    getStyle (setStyleW w n k v) n k = v := by
  simp [getStyle, setStyleW, List.find?_cons]

theorem getStyle_setStyleW_ne (w : World) (n : Nat) (k v : String) (m : Nat) (j : String)
    (h : ¬(m = n ∧ j = k)) :
    getStyle (setStyleW w n k v) m j = getStyle w m j := by
  have h2 : ((n, k, v).1 == m && (n, k, v).2.1 == j) = false := by
    by_cases hm : n = m ∧ k = j
    · exact absurd ⟨hm.1.symm, hm.2.symm⟩ h
    · rcases not_and_or.mp hm with h' | h' <;> simp [h']
  simp only [getStyle, setStyleW, List.find?_cons, h2, cond_false]
  rw [find?_style_filter _ _ _ _ _ h]

/-! Document operation lemmas. -/

@[simp] theorem conn_setPar (d : Dom) (n p : Nat) : (d.setPar n p).conn = d.conn := rfl
@[simp] theorem conn_clearPar (d : Dom) (n : Nat) : (d.clearPar n).conn = d.conn := rfl
@[simp] theorem par_connAdd (d : Dom) (n : Nat) : (d.connAdd n).par = d.par := rfl
@[simp] theorem par_connDel (d : Dom) (n : Nat) : (d.connDel n).par = d.par := rfl
@[simp] theorem parentOf_connAdd (d : Dom) (n m : Nat) :
    (d.connAdd n).parentOf m = d.parentOf m := rfl
@[simp] theorem parentOf_connDel (d : Dom) (n m : Nat) :
    (d.connDel n).parentOf m = d.parentOf m := rfl

theorem parentOf_setPar_same (d : Dom) (n p : Nat) :
    (d.setPar n p).parentOf n = some p := by
  simp [Dom.parentOf, Dom.setPar, List.find?_cons]

theorem parentOf_setPar_ne (d : Dom) (n p m : Nat) (h : m ≠ n) :
    (d.setPar n p).parentOf m = d.parentOf m := by
  have h2 : ((n, p).1 == m) = false := by simp; exact fun hh => h hh.symm
  simp only [Dom.parentOf, Dom.setPar, List.find?_cons, h2, cond_false]
  rw [find?_fst_filter _ _ _ h]

theorem parentOf_clearPar_ne (d : Dom) (n m : Nat) (h : m ≠ n) :
    (d.clearPar n).parentOf m = d.parentOf m := by
  simp only [Dom.parentOf, Dom.clearPar]
  rw [find?_fst_filter _ _ _ h]

theorem mem_connAdd (d : Dom) (n m : Nat) :
    m ∈ (d.connAdd n).conn ↔ m = n ∨ m ∈ d.conn := by
  simp only [Dom.connAdd, List.mem_cons, List.mem_filter, bne_iff_ne, ne_eq]
  constructor
  · rintro (rfl | ⟨hm, _⟩)
    · exact Or.inl rfl
    · exact Or.inr hm
  · rintro (rfl | hm)
    · exact Or.inl rfl
    · by_cases hmn : m = n
      · exact Or.inl hmn
      · exact Or.inr ⟨hm, hmn⟩

theorem mem_connDel (d : Dom) (n m : Nat) :
    m ∈ (d.connDel n).conn ↔ m ≠ n ∧ m ∈ d.conn := by
  simp only [Dom.connDel, List.mem_filter, bne_iff_ne, ne_eq]
  exact and_comm

@[simp] theorem root_setPar (d : Dom) (n p : Nat) : (d.setPar n p).root = d.root := rfl
@[simp] theorem root_clearPar (d : Dom) (n : Nat) : (d.clearPar n).root = d.root := rfl
@[simp] theorem root_connAdd (d : Dom) (n : Nat) : (d.connAdd n).root = d.root := rfl
@[simp] theorem root_connDel (d : Dom) (n : Nat) : (d.connDel n).root = d.root := rfl

theorem replaceChild_parentOf_new (d : Dom) (p newC oldC : Nat) (h : newC ≠ oldC) :
    (d.replaceChild p newC oldC).parentOf newC = some p := by
  unfold Dom.replaceChild
  split <;> simp [parentOf_clearPar_ne _ _ _ h, parentOf_setPar_same]

theorem replaceChild_parentOf_other (d : Dom) (p newC oldC m : Nat)
    (h1 : m ≠ newC) (h2 : m ≠ oldC) :
    (d.replaceChild p newC oldC).parentOf m = d.parentOf m := by
  unfold Dom.replaceChild
  split <;> simp [parentOf_clearPar_ne _ _ _ h2, parentOf_setPar_ne _ _ _ _ h1]

theorem replaceChild_conn_of_mem (d : Dom) (p newC oldC m : Nat) (hp : p ∈ d.conn) :
    m ∈ (d.replaceChild p newC oldC).conn ↔ m = newC ∨ (m ≠ oldC ∧ m ∈ d.conn) := by
  unfold Dom.replaceChild
  rw [if_pos hp]
  simp [mem_connAdd, mem_connDel]

theorem appendChild_parentOf_same (d : Dom) (p c : Nat) :
    (d.appendChild p c).parentOf c = some p := by
  unfold Dom.appendChild
  split <;> simp [parentOf_setPar_same]

theorem appendChild_parentOf_ne (d : Dom) (p c m : Nat) (h : m ≠ c) :
    (d.appendChild p c).parentOf m = d.parentOf m := by
  unfold Dom.appendChild
  split <;> simp [parentOf_setPar_ne _ _ _ _ h]

theorem appendChild_conn_ne (d : Dom) (p c m : Nat) (h : m ≠ c) :
    (m ∈ (d.appendChild p c).conn ↔ m ∈ d.conn) := by
  unfold Dom.appendChild
  split <;> simp [mem_connAdd, mem_connDel, h]

theorem appendChild_conn_of_mem (d : Dom) (p c m : Nat) (hp : p ∈ d.conn) :
    (m ∈ (d.appendChild p c).conn ↔ m = c ∨ m ∈ d.conn) := by
  unfold Dom.appendChild
  rw [if_pos hp]
  simp [mem_connAdd]

/-! Behaviour lemmas for the engine helpers. -/

theorem getFixedLayer_of_isSome (w : World) (f : Nat) (h : w.fixedLayer = some f) :
    getFixedLayer w = (w, some f) := by
  simp [getFixedLayer, h]

theorem someMatches_single_true (env : Env) (m : Dom → Nat → String → Except Nat Bool)
    (hm : env.matcher = some m) (w : World) (e : Nat) (s : String)
    (h : m w.dom e s = .ok true) :
    someMatches env w e [s] = (w, true) := by
  simp [someMatches, matchesFn, hm, h]

theorem someMatches_all_false (env : Env) (m : Dom → Nat → String → Except Nat Bool)
    (hm : env.matcher = some m) (w : World) (e : Nat) (sels : List String)
    (h : ∀ s ∈ sels, ∀ d, m d e s = .ok false) :
    someMatches env w e sels = (w, false) := by
  induction sels with
  | nil => rfl
  | cons s rest ih =>
    have hs := h s (by simp) w.dom
    simp only [someMatches, matchesFn, hm, hs]
    exact ih (fun s' hs' d => h s' (by simp [hs']) d)

/-- C1: `removeElement` on a transferred element does *not* reverse the
transfer.  In `wTransferred`, element 2 has been transferred into the
overlay layer (node 3) with placeholder 4 holding its place under
`body`.  `removeElement(2)` unregisters the element, but the scheduled
`returnFromFixedLayer_(element)` receives the raw DOM element — whose
`placeholder` property is `undefined` — so its first guard returns
immediately: the document is left completely untouched, with the element
still a child of the overlay layer and its placeholder dangling in the
tree.  This contradicts the claim that removal synchronously swaps the
element back into its placeholder's location, and contradicts the
source's own `@param {!FixedElementDef}` annotation on
`returnFromFixedLayer_`. -/
theorem removeElement_leaves_transfer_in_place :
    wRemoved.fixedElements = [] ∧
    wRemoved.dom = wTransferred.dom ∧
    wRemoved.styles = wTransferred.styles ∧
    wRemoved.dom.parentOf 2 = some 3 ∧
    wRemoved.fixedLayer = some 3 ∧
    wRemoved.dom.conn.contains 4 = true ∧
    wTransferred.fixedElements.map (·.placeholder) = [some 4] := by
  decide

/-- C2: after `updatePaddingTop(20)`, the cycle does *not* re-apply the
top offset of an element that was already observed fixed: the
`fixedNow` latch short-circuits `mutateFixedElement_` before the `top`
assignment, so the only thing that changes in the whole world is the
stored inset.  Element 2's inline top stays at `calc(0px + 10px)`
(computed for the old inset 10) instead of the claimed
`calc(0px + 20px)`.  This contradicts `updatePaddingTop`'s own doc
comment ("recalculates offsets of all elements"). -/
theorem updatePaddingTop_latched_offset_stale :
    wPadUpdated = { wPadApplied with paddingTop := 20 } ∧
    wPadApplied.fixedElements.map (·.fixedNow) = [some true] ∧
    wPadApplied.paddingTop = 10 ∧
    getStyle wPadUpdated 2 "top" = "calc(0px + 10px)" ∧
    getStyle wPadUpdated 2 "top" ≠ "calc(0px + 20px)" ∧
    wPadUpdated.writes = wPadApplied.writes := by
  decide

/-- C3: `sortInDomOrder_` does not establish document order.  The
source tests `cdp & 0x0A != 0`, which by JavaScript precedence is
`cdp & (0x0A != 0)` = `cdp & 1`: the PRECEDING (2) and CONTAINS (8)
bits named in the code comment are masked away (`sortConditionValue`
is 0 on 2, 8 and 10), so the comparator returns −1 for every pair of
connected elements.  On a registry holding elements 6, 5 in reverse
document order (5 precedes 6, `cdp 6 5 = 2`), the sort leaves the
order `[6, 5]`, whereas the comparison the comment describes
(`intendedSortCompare`) would return 1 and order them `[5, 6]`;
consequently transfer-time indices, and with them the synthetic
stacking values `10000 + index + z`, do not increase with document
order. -/
theorem sortInDomOrder_ignores_document_position :
    wRevSorted.fixedElements.map (·.element) = [6, 5] ∧
    sortCompare envRev
      { id := "F0", element := 6, selectors := ["s"] }
      { id := "F1", element := 5, selectors := ["s"] } = -1 ∧
    sortConditionValue 2 = 0 ∧
    sortConditionValue 8 = 0 ∧
    sortConditionValue 10 = 0 ∧
    intendedSortCompare 2 = 1 ∧
    intendedSortCompare 8 = 1 := by
  decide

/-- C9: violated through the `removeElement` slip (see C1).  Trace:
element 2 is transferred (`wTransferred`), removed while transferred
(`wRemoved` — the broken reversal leaves it in the overlay with its
transfer z-index), then re-registered via `addElement` and observed
non-fixed in the next cycle (`wReAdded`).  The element is now tracked
with `fixedNow = false`, yet it is still a child of the overlay layer
(node 3) and still carries the engine-applied inline z-index
`calc(10000 + 1)` — the claimed invariant fails on the code. -/
theorem false_cycle_residual_overlay :
    wReAdded.fixedElements.map (·.fixedNow) = [some false] ∧
    wReAdded.fixedElements.map (·.element) = [2] ∧
    wReAdded.fixedLayer = some 3 ∧
    wReAdded.dom.parentOf 2 = some 3 ∧
    getStyle wReAdded 2 "zIndex" = "calc(10000 + 1)" := by
  decide

/-- C4, counterexample: discovery failures are *not* caught
per-stylesheet.  `ssSheets` has two authored stylesheets; the first
contributes selectors `sGood1` and `sBad` (whose query throws 7), the
second contributes `sGood2`, matching element 5.  Because the single
`try` wraps the whole registration loop, the failure on `sBad` skips
`sGood2` entirely: element 5 is never tracked, although its rule lives
in a different stylesheet than the malformed one.  (The error is still
deferred, not synchronous: `deferred = [7]`.) -/
theorem setup_failure_not_caught_per_stylesheet :
    wSheets.fixedElements.map (·.element) = [2] ∧
    (wSheets.fixedElements.map (·.element)).contains 5 = false ∧
    wSheets.deferred = [7] := by
  decide

/-- C5, counterexample: a *non-zero* top offset can be transferable.
With computed `top = "0.5px"` (value one half, not zero) and all other
transfer conditions met, `parseInt` truncates to the integer 0 and the
element computes as transferrable — refuting "non-numeric or non-zero
top/bottom offsets never yield isTransferrable". -/
theorem transferrable_fractional_offset :
    (computeFeState cHalfTop).transferrable = true ∧
    cHalfTop.top = "0.5px" ∧
    jsParseFloat cHalfTop.top = some (5, 1) ∧
    decValue (5, 1) ≠ 0 ∧
    jsParseInt cHalfTop.top = some 0 := by
  refine ⟨by decide, by decide, by decide, ?_, by decide⟩
  norm_num [decValue]

/-! Field preservation through the mutate-phase operations. -/

theorem fpres_setStyleW (w : World) (n : Nat) (k v : String) :
    FPres w (setStyleW w n k v) :=
  ⟨rfl, rfl, rfl, fun _ h => h⟩

theorem fpres_setAttr (w : World) (n : Nat) (k v : String) :
    FPres w (setAttr w n k v) :=
  ⟨rfl, rfl, rfl, fun _ h => h⟩

theorem fpres_defer (w : World) (e : Nat) : FPres w (defer w e) :=
  ⟨rfl, rfl, rfl, fun _ h => h⟩

theorem fpres_replaceChildW (w : World) (p a b : Nat) :
    FPres w (replaceChildW w p a b) :=
  ⟨rfl, rfl, rfl, fun _ h => h⟩

theorem fpres_appendChildW (w : World) (p c : Nat) :
    FPres w (appendChildW w p c) :=
  ⟨rfl, rfl, rfl, fun _ h => h⟩

theorem fpres_removeChildW (w : World) (p c : Nat) :
    FPres w (removeChildW w p c) :=
  ⟨rfl, rfl, rfl, fun _ h => h⟩

theorem fpres_matchesFn (env : Env) (w : World) (e : Nat) (s : String) :
    FPres w (matchesFn env w e s).1 := by
  unfold matchesFn
  split
  · exact FPres.refl w
  · split
    · exact FPres.refl w
    · exact fpres_defer w _

theorem fpres_someMatches (env : Env) (w : World) (e : Nat) (sels : List String) :
    FPres w (someMatches env w e sels).1 := by
  induction sels generalizing w with
  | nil => exact FPres.refl w
  | cons s rest ih =>
    simp only [someMatches]
    rcases hmf : matchesFn env w e s with ⟨w₂, b⟩
    have h₂ : FPres w w₂ := by
      have := fpres_matchesFn env w e s
      rwa [hmf] at this
    cases b
    · exact h₂.trans (ih w₂)
    · exact h₂

theorem fpres_getFixedLayer (w : World) : FPres w (getFixedLayer w).1 := by
  unfold getFixedLayer
  by_cases hc : (!w.transfer || w.fixedLayer.isSome) = true
  · rw [if_pos hc]
    exact FPres.refl w
  · rw [if_neg hc]
    dsimp only
    refine ⟨?_, ?_, ?_, fun f hf => ?_⟩
    · rw [appendChildW_classNames, (foldl_setStyleW_pres _ _ _).1]
      rfl
    · rw [appendChildW_body, (foldl_setStyleW_pres _ _ _).2.1]
      rfl
    · rw [appendChildW_transfer, (foldl_setStyleW_pres _ _ _).2.2.1]
      rfl
    · rw [hf] at hc
      simp only [Option.isSome_some, Bool.or_true] at hc
      exact hc.elim trivial

/-- `getFixedLayer` returns the (possibly just created) layer handle it
stores. -/
theorem getFixedLayer_snd (w : World) :
    (getFixedLayer w).1.fixedLayer = (getFixedLayer w).2 := by
  unfold getFixedLayer
  by_cases hc : (!w.transfer || w.fixedLayer.isSome) = true
  · rw [if_pos hc]
  · rw [if_neg hc]
    dsimp only
    rw [appendChildW_fixedLayer, (foldl_setStyleW_pres _ _ _).2.2.2.1]
    rfl

/-- With transfer enabled, `getFixedLayer` always yields a layer. -/
theorem getFixedLayer_some_of_transfer (w : World) (h : w.transfer = true) :
    ∃ f, (getFixedLayer w).2 = some f := by
  unfold getFixedLayer
  by_cases hc : (!w.transfer || w.fixedLayer.isSome) = true
  · rw [if_pos hc]
    rcases hs : w.fixedLayer with _ | f
    · rw [h, hs] at hc
      simp at hc
    · exact ⟨f, rfl⟩
  · rw [if_neg hc]
    exact ⟨w.nextNode, rfl⟩

/-- `getFixedLayer` preserves the registry. -/
theorem getFixedLayer_fixedElements (w : World) :
    (getFixedLayer w).1.fixedElements = w.fixedElements := by
  unfold getFixedLayer
  by_cases hc : (!w.transfer || w.fixedLayer.isSome) = true
  · rw [if_pos hc]
  · rw [if_neg hc]
    dsimp only
    rw [appendChildW_fixedElements, (foldl_setStyleW_pres _ _ _).2.2.2.2]
    rfl

theorem fpres_returnFromFixedLayerV (w : World) (v : FeView) (w' : World)
    (h : returnFromFixedLayerV w v = .ok w') : FPres w w' := by
  unfold returnFromFixedLayerV at h
  rcases hv : v.placeholder with _ | ph
  · rw [hv] at h
    cases h
    exact FPres.refl w
  · rw [hv] at h
    dsimp only at h
    by_cases hmem : ph ∈ w.dom.conn
    · rw [if_pos hmem] at h
      rcases he : v.element with _ | el
      · rw [he] at h
        exact (Except.noConfusion h)
      · rw [he] at h
        dsimp only at h
        by_cases hel : el ∈ w.dom.conn
        · rw [if_pos hel] at h
          by_cases hz : getStyle w el "zIndex" ≠ ""
          · rw [if_pos hz] at h
            rcases hpo : (setStyleW w el "zIndex" "").dom.parentOf ph with _ | p
            · rw [hpo] at h
              exact (Except.noConfusion h)
            · rw [hpo] at h
              cases h
              exact (fpres_setStyleW _ _ _ _).trans (fpres_replaceChildW _ _ _ _)
          · rw [if_neg hz] at h
            rcases hpo : w.dom.parentOf ph with _ | p
            · rw [hpo] at h
              exact (Except.noConfusion h)
            · rw [hpo] at h
              cases h
              exact fpres_replaceChildW _ _ _ _
        · rw [if_neg hel] at h
          rcases hpo : w.dom.parentOf ph with _ | p
          · rw [hpo] at h
            exact (Except.noConfusion h)
          · rw [hpo] at h
            cases h
            exact fpres_removeChildW _ _ _
    · rw [if_neg hmem] at h
      cases h
      exact FPres.refl w

theorem ensurePlaceholder_spec (w : World) (fe : FixedElementDef) :
    (ensurePlaceholder w fe).2.id = fe.id ∧
    (ensurePlaceholder w fe).2.element = fe.element ∧
    (ensurePlaceholder w fe).2.fixedNow = fe.fixedNow ∧
    FPres w (ensurePlaceholder w fe).1 := by
  unfold ensurePlaceholder
  split
  · exact ⟨rfl, rfl, rfl, FPres.refl w⟩
  · exact ⟨rfl, rfl, rfl, rfl, rfl, rfl, fun _ hf => hf⟩

theorem transferMove_ok_spec (env : Env) (w : World) (fe : FixedElementDef)
    (i : Nat) (st : FeState) (w' : World) (fe' : FixedElementDef)
    (h : transferMove env w fe i st = .ok (w', fe')) :
    fe' = fe ∧ FPres w w' := by
  unfold transferMove at h
  dsimp only at h
  simp only [setStyleW_dom] at h
  rcases hpo : w.dom.parentOf fe.element with _ | p <;>
    rcases hph : fe.placeholder with _ | ph <;>
    rw [hpo, hph] at h
  · exact (Except.noConfusion h)
  · exact (Except.noConfusion h)
  · exact (Except.noConfusion h)
  · dsimp only at h
    set W₃ := replaceChildW (setStyleW w fe.element "zIndex"
      ("calc(" ++ toString (10000 + i) ++ " + " ++
        (if st.zIndex ≠ "" then st.zIndex else "0") ++ ")")) p ph fe.element with hW₃
    have hfpW₃ : FPres w W₃ :=
      (fpres_setStyleW _ _ _ _).trans (fpres_replaceChildW _ _ _ _)
    rcases hgf : getFixedLayer W₃ with ⟨w₄, fl⟩
    rw [hgf] at h
    have hfp₄ : FPres W₃ w₄ := by
      have := fpres_getFixedLayer W₃
      rwa [hgf] at this
    rcases fl with _ | f
    · exact (Except.noConfusion h)
    · dsimp only at h
      rcases hsm : someMatches env (appendChildW w₄ f fe.element) fe.element fe.selectors
        with ⟨w₆, ms⟩
      rw [hsm] at h
      have hfp₆ : FPres (appendChildW w₄ f fe.element) w₆ := by
        have := fpres_someMatches env (appendChildW w₄ f fe.element) fe.element fe.selectors
        rwa [hsm] at this
      have base : FPres w w₆ :=
        ((hfpW₃.trans hfp₄).trans (fpres_appendChildW _ _ _)).trans hfp₆
      rcases ms with _ | _
      · rw [if_neg (by simp)] at h
        cases hrf : returnFromFixedLayer w₆ fe with
        | ok w₇ =>
          rw [hrf] at h
          cases h
          exact ⟨rfl, base.trans (fpres_returnFromFixedLayerV _ _ _ hrf)⟩
        | error ew =>
          rw [hrf] at h
          exact (Except.noConfusion h)
      · rw [if_pos rfl] at h
        cases h
        exact ⟨rfl, base⟩

/-- A successful transfer changes neither the identification fields of
the entry (only its placeholder) nor the preserved world fields. -/
theorem transferToFixedLayer_ok_spec (env : Env) (w : World) (fe : FixedElementDef)
    (i : Nat) (st : FeState) (w' : World) (fe' : FixedElementDef)
    (h : transferToFixedLayer env w fe i st = .ok (w', fe')) :
    fe'.id = fe.id ∧ fe'.element = fe.element ∧ fe'.fixedNow = fe.fixedNow ∧
    FPres w w' := by
  unfold transferToFixedLayer at h
  by_cases h0 : w.dom.parentOf fe.element = w.fixedLayer
  · rw [if_pos h0] at h
    cases h
    exact ⟨rfl, rfl, rfl, FPres.refl w⟩
  · rw [if_neg h0] at h
    rcases hep : ensurePlaceholder w fe with ⟨w₁, fe₁⟩
    rw [hep] at h
    dsimp only at h
    obtain ⟨hid, hel, hfn, hfp⟩ := ensurePlaceholder_spec w fe
    rw [hep] at hid hel hfn hfp
    obtain ⟨hfe, hfp₂⟩ := transferMove_ok_spec _ _ _ _ _ _ _ h
    exact ⟨by rw [hfe, hid], by rw [hfe, hel], by rw [hfe, hfn], hfp.trans hfp₂⟩

/-- The latch (claim C6, first half): when the observed fixed state is
unchanged from the prior cycle, `mutateFixedElement_` does nothing —
no style writes, no DOM changes, no entry update. -/
theorem mutateFixedElement_latch (env : Env) (w : World) (fe : FixedElementDef)
    (i : Nat) (st : FeState) (h : fe.fixedNow = some st.fixed) :
    mutateFixedElement env w fe i st = .ok (w, fe) := by
  unfold mutateFixedElement
  rw [if_pos h]

/-- A successful `mutateFixedElement_` latches the observed fixed state
into the entry, preserves the entry's id and element, and preserves the
cycle-invariant world fields. -/
theorem mutateFixedElement_ok_spec (env : Env) (w : World) (fe : FixedElementDef)
    (i : Nat) (st : FeState) (w' : World) (fe' : FixedElementDef)
    (h : mutateFixedElement env w fe i st = .ok (w', fe')) :
    fe'.id = fe.id ∧ fe'.element = fe.element ∧ fe'.fixedNow = some st.fixed ∧
    FPres w w' := by
  unfold mutateFixedElement at h
  by_cases hl : fe.fixedNow = some st.fixed
  · rw [if_pos hl] at h
    cases h
    exact ⟨rfl, rfl, hl, FPres.refl w⟩
  · rw [if_neg hl] at h
    dsimp only at h
    rcases hsf : st.fixed with _ | _ <;> rw [hsf] at h
    · -- observed non-fixed: reset `top`, return from the layer
      rw [if_neg (by simp)] at h
      by_cases ht : getStyle w fe.element "top" ≠ ""
      · rw [if_pos ht] at h
        cases hrf : returnFromFixedLayer (setStyleW w fe.element "top" "")
            { fe with fixedNow := some false } with
        | ok w₇ =>
          rw [hrf] at h
          cases h
          exact ⟨rfl, rfl, rfl,
            (fpres_setStyleW _ _ _ _).trans (fpres_returnFromFixedLayerV _ _ _ hrf)⟩
        | error ew =>
          rw [hrf] at h
          exact (Except.noConfusion h)
      · rw [if_neg ht] at h
        cases hrf : returnFromFixedLayer w { fe with fixedNow := some false } with
        | ok w₇ =>
          rw [hrf] at h
          cases h
          exact ⟨rfl, rfl, rfl, fpres_returnFromFixedLayerV _ _ _ hrf⟩
        | error ew =>
          rw [hrf] at h
          exact (Except.noConfusion h)
    · -- observed fixed: `top` update, then possibly transfer or return
      rw [if_pos rfl] at h
      by_cases ht : st.top ≠ ""
      · rw [if_pos ht] at h
        set W₁ := setStyleW w fe.element "top"
          ("calc(" ++ st.top ++ " + " ++ toString w.paddingTop ++ "px)") with hW₁
        have hfpW₁ : FPres w W₁ := fpres_setStyleW _ _ _ _
        by_cases htr : W₁.transfer = true
        · rw [if_pos htr] at h
          rcases hstr : st.transferrable with _ | _ <;> rw [hstr] at h
          · rw [if_neg (by simp)] at h
            cases hrf : returnFromFixedLayer W₁ { fe with fixedNow := some true } with
            | ok w₇ =>
              rw [hrf] at h
              cases h
              exact ⟨rfl, rfl, rfl,
                hfpW₁.trans (fpres_returnFromFixedLayerV _ _ _ hrf)⟩
            | error ew =>
              rw [hrf] at h
              exact (Except.noConfusion h)
          · rw [if_pos rfl] at h
            obtain ⟨hid, hel, hfn, hfp⟩ :=
              transferToFixedLayer_ok_spec env W₁ { fe with fixedNow := some true }
                i st w' fe' h
            exact ⟨hid, hel, by rw [hfn], hfpW₁.trans hfp⟩
        · rw [if_neg htr] at h
          rw [Except.ok.injEq, Prod.mk.injEq] at h
          obtain ⟨hw', hfe'⟩ := h
          exact ⟨by rw [← hfe'], by rw [← hfe'], by rw [← hfe'], hw' ▸ hfpW₁⟩
      · rw [if_neg ht] at h
        by_cases htr : w.transfer = true
        · rw [if_pos htr] at h
          rcases hstr : st.transferrable with _ | _ <;> rw [hstr] at h
          · rw [if_neg (by simp)] at h
            cases hrf : returnFromFixedLayer w { fe with fixedNow := some true } with
            | ok w₇ =>
              rw [hrf] at h
              cases h
              exact ⟨rfl, rfl, rfl, fpres_returnFromFixedLayerV _ _ _ hrf⟩
            | error ew =>
              rw [hrf] at h
              exact (Except.noConfusion h)
          · rw [if_pos rfl] at h
            obtain ⟨hid, hel, hfn, hfp⟩ :=
              transferToFixedLayer_ok_spec env w { fe with fixedNow := some true }
                i st w' fe' h
            exact ⟨hid, hel, by rw [hfn], hfp⟩
        · rw [if_neg htr] at h
          cases h
          exact ⟨rfl, rfl, rfl, FPres.refl w⟩

/-- A mutate loop that completes without error preserves each entry's
id and element, latches each entry's `fixedNow` to its measured state,
and preserves the cycle-invariant world fields. -/
theorem mutateLoop_ok_spec (env : Env) (sm : List (String × FeState)) :
    ∀ (fes : List FixedElementDef) (w : World) (i : Nat) (w' : World)
      (fes' : List FixedElementDef),
      mutateLoop env sm w fes i = (w', fes', none) →
      fes'.map (fun fe => (fe.id, fe.element)) =
        fes.map (fun fe => (fe.id, fe.element)) ∧
      (∀ fe' ∈ fes', ∀ st, sm.lookup fe'.id = some st →
        fe'.fixedNow = some st.fixed) ∧
      FPres w w' := by
  intro fes
  induction fes with
  | nil =>
    intro w i w' fes' h
    unfold mutateLoop at h
    rw [Prod.mk.injEq, Prod.mk.injEq] at h
    obtain ⟨hw, hfes, -⟩ := h
    subst hw
    subst hfes
    exact ⟨rfl, by simp, FPres.refl w⟩
  | cons fe rest ih =>
    intro w i w' fes' h
    unfold mutateLoop at h
    cases hlk : sm.lookup fe.id with
    | none =>
      rw [hlk] at h
      dsimp only at h
      rcases hml : mutateLoop env sm w rest (i + 1) with ⟨w₁, rest₁, err₁⟩
      rw [hml] at h
      rw [Prod.mk.injEq, Prod.mk.injEq] at h
      obtain ⟨hw, hfes, herr⟩ := h
      subst hw
      subst hfes
      subst herr
      obtain ⟨hmap, hprop, hfp⟩ := ih w (i + 1) w₁ rest₁ hml
      refine ⟨by simp [hmap], ?_, hfp⟩
      intro fe' hfe' st hst
      rcases List.mem_cons.mp hfe' with rfl | hmem
      · rw [hlk] at hst
        exact (Option.noConfusion hst)
      · exact hprop fe' hmem st hst
    | some st =>
      rw [hlk] at h
      dsimp only at h
      cases hmf : mutateFixedElement env w fe i st with
      | ok pair =>
        rcases pair with ⟨w₁, fe₁⟩
        rw [hmf] at h
        dsimp only at h
        rcases hml : mutateLoop env sm w₁ rest (i + 1) with ⟨w₂, rest₂, err₂⟩
        rw [hml] at h
        rw [Prod.mk.injEq, Prod.mk.injEq] at h
        obtain ⟨hw, hfes, herr⟩ := h
        subst hw
        subst hfes
        subst herr
        obtain ⟨hid, hel, hfn, hfp₁⟩ := mutateFixedElement_ok_spec _ _ _ _ _ _ _ hmf
        obtain ⟨hmap, hprop, hfp₂⟩ := ih w₁ (i + 1) w₂ rest₂ hml
        refine ⟨by simp [hmap, hid, hel], ?_, hfp₁.trans hfp₂⟩
        intro fe' hfe' st' hst'
        rcases List.mem_cons.mp hfe' with rfl | hmem
        · rw [hid, hlk] at hst'
          cases hst'
          exact hfn
        · exact hprop fe' hmem st' hst'
      | error epair =>
        rcases epair with ⟨e, w₁, fe₁⟩
        rw [hmf] at h
        dsimp only at h
        rw [Prod.mk.injEq, Prod.mk.injEq] at h
        exact (Option.noConfusion h.2.2)

/-- If every entry is already latched to its measured state, the whole
mutate loop is the identity (no mutation work at all). -/
theorem mutateLoop_latched (env : Env) (sm : List (String × FeState)) :
    ∀ (fes : List FixedElementDef) (w : World) (i : Nat),
      (∀ fe ∈ fes, ∀ st, sm.lookup fe.id = some st →
        fe.fixedNow = some st.fixed) →
      mutateLoop env sm w fes i = (w, fes, none) := by
  intro fes
  induction fes with
  | nil => intro w i _; rfl
  | cons fe rest ih =>
    intro w i hp
    unfold mutateLoop
    cases hlk : sm.lookup fe.id with
    | none =>
      dsimp only
      rw [ih w (i + 1) (fun fe' hm st hst => hp fe' (List.mem_cons_of_mem _ hm) st hst)]
    | some st =>
      dsimp only
      rw [mutateFixedElement_latch env w fe i st (hp fe (List.mem_cons_self fe rest) st hlk)]
      dsimp only
      rw [ih w (i + 1) (fun fe' hm st hst => hp fe' (List.mem_cons_of_mem _ hm) st hst)]

/-- The measure phase depends only on the ids and elements of the
registry entries. -/
theorem measureAux_congr (env : Env) :
    ∀ (fes fes' : List FixedElementDef),
      fes.map (fun fe => (fe.id, fe.element)) =
        fes'.map (fun fe => (fe.id, fe.element)) →
      ∀ (acc : List (String × FeState)) (b : Bool),
        measureAux env fes acc b = measureAux env fes' acc b := by
  intro fes
  induction fes with
  | nil =>
    intro fes' h acc b
    cases fes' with
    | nil => rfl
    | cons _ _ => simp at h
  | cons fe rest ih =>
    intro fes' h acc b
    cases fes' with
    | nil => simp at h
    | cons fe₂ rest₂ =>
      simp only [List.map_cons, List.cons.injEq, Prod.mk.injEq] at h
      obtain ⟨⟨hid, hel⟩, hrest⟩ := h
      simp only [measureAux]
      rw [hid, hel]
      exact ih rest₂ hrest _ _

@[simp] theorem setClass_body (w : World) (n : Nat) (v : String) :
    (setClass w n v).body = w.body := rfl
@[simp] theorem setClass_fixedLayer (w : World) (n : Nat) (v : String) :
    (setClass w n v).fixedLayer = w.fixedLayer := rfl
@[simp] theorem setClass_fixedElements (w : World) (n : Nat) (v : String) :
    (setClass w n v).fixedElements = w.fixedElements := rfl
@[simp] theorem setClass_transfer (w : World) (n : Nat) (v : String) :
    (setClass w n v).transfer = w.transfer := rfl

theorem getClass_setClass_same (w : World) (n : Nat) (v : String) :
    getClass (setClass w n v) n = v := by
  simp [getClass, setClass, List.find?_cons]

theorem getClass_setClass_other (w : World) (n : Nat) (v : String) (m : Nat)
    (h : m ≠ n) :
    getClass (setClass w n v) m = getClass w m := by
  have h2 : ((n, v).1 == m) = false := by
    simp only [beq_eq_false_iff_ne, ne_eq]
    exact fun hh => h hh.symm
  simp only [getClass, setClass, List.find?_cons, h2, cond_false]
  rw [find?_fst_filter _ _ _ h]

theorem getClass_congr (w₁ w₂ : World) (h : w₁.classNames = w₂.classNames) (n : Nat) :
    getClass w₁ n = getClass w₂ n := by
  unfold getClass
  rw [h]

/-- The class-mirroring step never touches the registry, `body` or the
transfer flag. -/
theorem classNameStep_fields (w : World) (ht : Bool) :
    (classNameStep w ht).fixedElements = w.fixedElements ∧
    (classNameStep w ht).body = w.body ∧
    (classNameStep w ht).transfer = w.transfer := by
  unfold classNameStep
  by_cases hc : (ht && w.transfer) = true
  · rw [if_pos hc]
    rcases hgf : getFixedLayer w with ⟨w₁, fl⟩
    have hfe : w₁.fixedElements = w.fixedElements := by
      have := getFixedLayer_fixedElements w
      rwa [hgf] at this
    have hfp : FPres w w₁ := by
      have := fpres_getFixedLayer w
      rwa [hgf] at this
    rcases fl with _ | f
    · exact ⟨hfe, hfp.2.1, hfp.2.2.1⟩
    · dsimp only
      by_cases hcl : getClass w₁ f ≠ getClass w₁ w₁.body
      · rw [if_pos hcl]
        exact ⟨hfe, hfp.2.1, hfp.2.2.1⟩
      · rw [if_neg hcl]
        exact ⟨hfe, hfp.2.1, hfp.2.2.1⟩
  · rw [if_neg hc]
    exact ⟨rfl, rfl, rfl⟩

/-- After a class-mirroring step that actually runs, the overlay exists
and its class equals `body`'s. -/
theorem classNameStep_spec_true (w : World) (ht : Bool)
    (hc : (ht && w.transfer) = true) :
    ∃ f, (classNameStep w ht).fixedLayer = some f ∧
      getClass (classNameStep w ht) f =
        getClass (classNameStep w ht) (classNameStep w ht).body := by
  unfold classNameStep
  rw [if_pos hc]
  have htr : w.transfer = true := by
    simp only [Bool.and_eq_true] at hc
    exact hc.2
  obtain ⟨f, hf⟩ := getFixedLayer_some_of_transfer w htr
  rcases hgf : getFixedLayer w with ⟨w₁, fl⟩
  rw [hgf] at hf
  dsimp only at hf
  have hw₁f : w₁.fixedLayer = some f := by
    have := getFixedLayer_snd w
    rw [hgf] at this
    dsimp only at this
    rw [this, hf]
  subst hf
  dsimp only
  by_cases hcl : getClass w₁ f ≠ getClass w₁ w₁.body
  · rw [if_pos hcl]
    refine ⟨f, hw₁f, ?_⟩
    rw [setClass_body]
    by_cases hbf : w₁.body = f
    · rw [hbf]
    · rw [getClass_setClass_same, getClass_setClass_other _ _ _ _ hbf]
  · rw [if_neg hcl]
    push_neg at hcl
    exact ⟨f, hw₁f, hcl⟩

/-- The class-mirroring step is a no-op when either it is not taken or
the overlay exists with a class already equal to `body`'s. -/
theorem classNameStep_noop (w : World) (ht : Bool)
    (h : (ht && w.transfer) = false ∨
      ∃ f, w.fixedLayer = some f ∧ getClass w f = getClass w w.body) :
    classNameStep w ht = w := by
  unfold classNameStep
  rcases h with hc | ⟨f, hfl, hcl⟩
  · rw [if_neg (by rw [hc]; exact Bool.false_ne_true)]
  · by_cases hc : (ht && w.transfer) = true
    · rw [if_pos hc]
      rw [getFixedLayer_of_isSome w f hfl]
      dsimp only
      rw [if_neg (by rw [not_ne_iff]; exact hcl)]
    · rw [if_neg hc]

theorem opacityPositive_iff (s : String) :
    opacityPositive s = true ↔ ∃ n k, jsParseFloat s = some (n, k) ∧ 0 < n := by
  unfold opacityPositive
  cases h : jsParseFloat s with
  | none => simp
  | some p =>
    simp only [decide_eq_true_eq]
    constructor
    · intro hp
      exact ⟨p.1, p.2, by simp, hp⟩
    · rintro ⟨n, k, hnk, hn⟩
      cases hnk
      exact hn

theorem isAllowedCoord_iff (s : String) :
    isAllowedCoord s = true ↔ s ≠ "" ∧ jsParseInt s = some 0 := by
  simp [isAllowedCoord]

/-- C5, amended: the flag computations of the measure phase.
`isFixed` holds iff the computed position is `fixed` and both rendered
dimensions are positive.  `isTransferrable` holds iff `isFixed`,
visibility is not `hidden`, `parseFloat(opacity)` is a (defined)
positive value, rendered height is under 300, and the computed top or
bottom string is non-empty and *parses via `parseInt` to the integer 0*
— i.e. its leading integer part is zero.  Offsets that are non-numeric
or whose integer part is non-zero are never transferable (third
conjunct); a fractional non-zero offset such as `0.5px`, whose integer
part is 0, *is* transferable (see `transferrable_fractional_offset`). -/
theorem transferrable_characterization :
    (∀ c : ComputedStyle,
      (computeFeState c).fixed = true ↔
        (c.position = "fixed" ∧ 0 < c.offsetWidth ∧ 0 < c.offsetHeight)) ∧
    (∀ c : ComputedStyle,
      (computeFeState c).transferrable = true ↔
        ((computeFeState c).fixed = true ∧
         c.visibility ≠ "hidden" ∧
         (∃ n k, jsParseFloat c.opacity = some (n, k) ∧ 0 < n) ∧
         c.offsetHeight < 300 ∧
         ((c.top ≠ "" ∧ jsParseInt c.top = some 0) ∨
          (c.bottom ≠ "" ∧ jsParseInt c.bottom = some 0)))) ∧
    (∀ c : ComputedStyle,
      jsParseInt c.top ≠ some 0 → jsParseInt c.bottom ≠ some 0 →
      (computeFeState c).transferrable = false) := by
  refine ⟨?_, ?_, ?_⟩
  · intro c
    simp [computeFeState, and_assoc]
  · intro c
    simp only [computeFeState, Bool.and_eq_true, Bool.or_eq_true, decide_eq_true_eq,
      opacityPositive_iff, isAllowedCoord_iff]
    tauto
  · intro c h1 h2
    have ht : isAllowedCoord c.top = false := by
      rcases Bool.eq_false_or_eq_true (isAllowedCoord c.top) with htr | hf
      · exact absurd ((isAllowedCoord_iff _).mp htr).2 h1
      · exact hf
    have hb : isAllowedCoord c.bottom = false := by
      rcases Bool.eq_false_or_eq_true (isAllowedCoord c.bottom) with htr | hf
      · exact absurd ((isAllowedCoord_iff _).mp htr).2 h2
      · exact hf
    simp [computeFeState, ht, hb]

/-- Witness for `transferrable_characterization`: a static element with
non-numeric offsets (`"auto"` does not parse) is not transferable. -/
theorem transferrable_characterization_witness :
    (computeFeState staticCS).transferrable = false :=
  transferrable_characterization.2.2 staticCS (by decide) (by decide)

/-- C6: the `fixedNow` latch and cycle idempotence.  First conjunct:
when an entry's observed fixed state is unchanged from the prior cycle,
`mutateFixedElement_` performs no mutation work at all for it (the
world — styles, DOM, write log — and the entry are returned untouched).
Second conjunct: if an update cycle completes without a cycle error and
its tracked elements remain in the document, running the same cycle
again (same computed-style environment, i.e. no intervening DOM or
style change) is the identity on the whole world — in particular it
produces zero additional style writes. -/
theorem latch_and_cycle_idempotence :
    (∀ (env : Env) (w : World) (fe : FixedElementDef) (i : Nat) (st : FeState),
      fe.fixedNow = some st.fixed →
      mutateFixedElement env w fe i st = .ok (w, fe)) ∧
    (∀ (env : Env) (w : World),
      (updateE env w).2 = none →
      (∀ fe ∈ (update env w).fixedElements,
        fe.element ∈ (update env w).dom.conn) →
      update env (update env w) = update env w) := by
  refine ⟨mutateFixedElement_latch, ?_⟩
  intro env w hok hconn
  rcases hu : updateE env w with ⟨w₁, err⟩
  have herr : err = none := by
    rw [hu] at hok
    exact hok
  subst herr
  have hup : update env w = w₁ := by
    unfold update
    rw [hu]
  rw [hup] at hconn ⊢
  unfold updateE at hu
  by_cases hemp : w.fixedElements.length = 0
  · rw [if_pos hemp] at hu
    rw [Prod.mk.injEq] at hu
    obtain ⟨hw₁, -⟩ := hu
    subst hw₁
    unfold update updateE
    rw [if_pos hemp]
  · rw [if_neg hemp] at hu
    dsimp only at hu
    set WP := ((w.fixedElements.filter
        (fun fe => !w.dom.conn.contains fe.element)).foldl
      (fun acc fe => removeFixedElement acc fe.element) w) with hWP
    rcases hms : measurePhase env WP.fixedElements with ⟨sm, ht⟩
    rw [hms] at hu
    dsimp only at hu
    unfold mutatePhase at hu
    dsimp only at hu
    rcases hml : mutateLoop env sm (classNameStep WP ht)
        (classNameStep WP ht).fixedElements 0 with ⟨w₂, fes₂, err₂⟩
    rw [hml] at hu
    dsimp only at hu
    rw [Prod.mk.injEq] at hu
    obtain ⟨hw₁, herr₂⟩ := hu
    subst herr₂
    subst hw₁
    obtain ⟨hmap, hprop, hfp⟩ :=
      mutateLoop_ok_spec env sm (classNameStep WP ht).fixedElements
        (classNameStep WP ht) 0 w₂ fes₂ hml
    obtain ⟨hclsFe, hclsBody, hclsTr⟩ := classNameStep_fields WP ht
    by_cases hemp₁ : ({ w₂ with fixedElements := fes₂ } : World).fixedElements.length = 0
    · unfold update updateE
      rw [if_pos hemp₁]
    · have hfil : ({ w₂ with fixedElements := fes₂ } : World).fixedElements.filter
          (fun fe => !({ w₂ with fixedElements := fes₂ } : World).dom.conn.contains
            fe.element) = [] := by
        rw [List.filter_eq_nil_iff]
        intro fe hfe
        have hm := hconn fe hfe
        simp only [Bool.not_eq_true', Bool.not_eq_false]
        exact List.elem_eq_true_of_mem hm
      have hmap₂ : fes₂.map (fun fe => (fe.id, fe.element)) =
          WP.fixedElements.map (fun fe => (fe.id, fe.element)) := by
        rw [hmap, hclsFe]
      have hmeq : measurePhase env
          ({ w₂ with fixedElements := fes₂ } : World).fixedElements = (sm, ht) := by
        show measurePhase env fes₂ = (sm, ht)
        unfold measurePhase
        rw [measureAux_congr env fes₂ WP.fixedElements hmap₂]
        unfold measurePhase at hms
        exact hms
      have hcls₁ : classNameStep ({ w₂ with fixedElements := fes₂ } : World) ht =
          ({ w₂ with fixedElements := fes₂ } : World) := by
        by_cases hc : (ht && ({ w₂ with fixedElements := fes₂ } : World).transfer) = true
        · have hc' : (ht && WP.transfer) = true := by
            have : ({ w₂ with fixedElements := fes₂ } : World).transfer =
                WP.transfer := by
              show w₂.transfer = WP.transfer
              rw [hfp.2.2.1, hclsTr]
            rwa [this] at hc
          obtain ⟨f, hfl, hgc⟩ := classNameStep_spec_true WP ht hc'
          apply classNameStep_noop
          right
          refine ⟨f, hfp.2.2.2 f hfl, ?_⟩
          have hcn : ({ w₂ with fixedElements := fes₂ } : World).classNames =
              (classNameStep WP ht).classNames := hfp.1
          have hb : ({ w₂ with fixedElements := fes₂ } : World).body =
              (classNameStep WP ht).body := hfp.2.1
          calc getClass ({ w₂ with fixedElements := fes₂ } : World) f
              = getClass (classNameStep WP ht) f := getClass_congr _ _ hcn f
            _ = getClass (classNameStep WP ht) (classNameStep WP ht).body := hgc
            _ = getClass ({ w₂ with fixedElements := fes₂ } : World)
                ({ w₂ with fixedElements := fes₂ } : World).body := by
                rw [hb]
                exact (getClass_congr _ _ hcn _).symm
        · apply classNameStep_noop
          left
          revert hc
          cases (ht && ({ w₂ with fixedElements := fes₂ } : World).transfer) <;> simp
      have hlatch : mutateLoop env sm ({ w₂ with fixedElements := fes₂ } : World)
          ({ w₂ with fixedElements := fes₂ } : World).fixedElements 0 =
          (({ w₂ with fixedElements := fes₂ } : World), fes₂, none) :=
        mutateLoop_latched env sm fes₂ _ 0 hprop
      have hU : updateE env ({ w₂ with fixedElements := fes₂ } : World) =
          (({ w₂ with fixedElements := fes₂ } : World), none) := by
        unfold updateE
        rw [if_neg hemp₁]
        dsimp only
        rw [hfil, List.foldl_nil, hmeq]
        dsimp only
        unfold mutatePhase
        rw [hcls₁]
        dsimp only
        rw [hlatch]
      unfold update
      rw [hU]

/-- Witness for `latch_and_cycle_idempotence`: the `wIdem` scenario
(one tracked element, observed non-fixed, transfer disabled). -/
theorem latch_and_cycle_idempotence_witness :
    update envIdem (update envIdem wIdem) = update envIdem wIdem :=
  latch_and_cycle_idempotence.2 envIdem wIdem (by decide) (by decide)

/-- C4, amended: failures are deferred and reported asynchronously and
do not abort setup, the cycle, or subsequent cycles — but the discovery
guard is a *single* try around the whole registration loop, not
per-stylesheet.  Conjuncts:
1. a selector-query failure mid-loop defers its error (`deferred = [7]`)
   while setup still proceeds through reorder and a full cycle (the
   registered element's `fixedNow` was latched by the cycle); remaining
   selectors are skipped;
2. a matcher failure during re-match is caught per-element: the error is
   deferred and the element is treated as non-matching;
3. a failure inside the mutate phase (here: `replaceChild` on the null
   parent of the document element) rejects that cycle, whose error is
   deferred (`errTypeError`), and the next cycle still runs to
   completion without new errors. -/
theorem error_deferral_policy :
    (wSheets.fixedElements.map (·.element) = [2] ∧
      wSheets.deferred = [7] ∧
      wSheets.fixedElements.map (·.fixedNow) = [some false]) ∧
    (∀ (env : Env) (w : World) (e : Nat) (sel : String)
        (m : Dom → Nat → String → Except Nat Bool) (err : Nat),
      env.matcher = some m → m w.dom e sel = .error err →
      matchesFn env w e sel = (defer w err, false)) ∧
    (wRootCycle.deferred = [errTypeError] ∧
      wRootNext.fixedElements.map (·.fixedNow) = [some false] ∧
      wRootNext.deferred = wRootCycle.deferred) := by
  refine ⟨by decide, ?_, by decide⟩
  intro env w e sel m err hm herr
  simp [matchesFn, hm, herr]

/-- Witness for `error_deferral_policy`: the matcher-failure conjunct
instantiated with the always-throwing matcher of `envErrMatch`. -/
theorem error_deferral_policy_witness :
    matchesFn envErrMatch wOverlay 2 "div.x" = (defer wOverlay 9, false) :=
  error_deferral_policy.2.1 envErrMatch wOverlay 2 "div.x"
    (fun _ _ _ => .error 9) 9 rfl rfl

/-- C7: discovery-driven registration caps at 11 elements per selector
(`if (i > 10) break`): the selector of `ssCap` matches the fifteen
elements 10..24 but exactly 10..20 are tracked.  Explicit registration
(`addElement`, which calls `setupFixedElement_` with selector `*`) is
uncapped: on any registry, registering a not-yet-tracked element always
appends a new entry. -/
theorem discovery_cap_eleven :
    wCap.fixedElements.map (·.element) =
      [10, 11, 12, 13, 14, 15, 16, 17, 18, 19, 20] ∧
    (∀ (w : World) (e : Nat),
      (∀ fe ∈ w.fixedElements, fe.element ≠ e) →
      (setupFixedElement w e "*").fixedElements.length =
        w.fixedElements.length + 1) := by
  constructor
  · decide
  · intro w e h
    have hf : w.fixedElements.find? (fun fe => fe.element == e) = none := by
      rw [List.find?_eq_none]
      intro fe hfe
      simpa using h fe hfe
    simp [setupFixedElement, hf, setAttr]

/-- C8: if, immediately after the move into the overlay layer, none of
the element's triggering selectors match any more (the matcher answers
`false` for every one of them, in any tree), the transfer is reversed
within the same `transferToFixedLayer_` call: the element ends up back
under its original parent `p`, the freshly created placeholder
(`w.nextNode`) is out of the document, and the transfer z-index has
been cleared. -/
theorem post_transfer_rematch_reverses
    (env : Env) (w : World) (fe : FixedElementDef) (i : Nat) (st : FeState)
    (m : Dom → Nat → String → Except Nat Bool)
    (hm : env.matcher = some m)
    (hnomatch : ∀ s ∈ fe.selectors, ∀ d, m d fe.element s = .ok false)
    (p f : Nat)
    (hp : w.dom.parentOf fe.element = some p)
    (hfl : w.fixedLayer = some f)
    (hpf : p ≠ f)
    (hph : fe.placeholder = none)
    (hpc : p ∈ w.dom.conn)
    (hfc : f ∈ w.dom.conn)
    (hep : p ≠ fe.element) (hef : f ≠ fe.element)
    (hnn₁ : fe.element < w.nextNode) (hnn₂ : p < w.nextNode) (hnn₃ : f < w.nextNode) :
    ∃ w', transferToFixedLayer env w fe i st =
        .ok (w', { fe with placeholder := some w.nextNode }) ∧
      w'.dom.parentOf fe.element = some p ∧
      w.nextNode ∉ w'.dom.conn ∧
      getStyle w' fe.element "zIndex" = "" := by
  have hNe : w.nextNode ≠ fe.element := Nat.ne_of_gt hnn₁
  have hNp : w.nextNode ≠ p := Nat.ne_of_gt hnn₂
  have hNf : w.nextNode ≠ f := Nat.ne_of_gt hnn₃
  have hzne : ∀ z : String,
      ("calc(" ++ toString (10000 + i) ++ " + " ++ z ++ ")") ≠ "" := by
    intro z hcontra
    have hlen := congrArg String.length hcontra
    simp only [String.length_append] at hlen
    have h5 : ("calc(" : String).length = 5 := rfl
    have h0 : ("" : String).length = 0 := rfl
    omega
  unfold transferToFixedLayer ensurePlaceholder transferMove
  rw [hp, hfl, if_neg (by exact fun hh => hpf (Option.some.inj hh)), hph]
  dsimp only
  simp only [setStyleW_dom, setAttr_dom, setStyleW_fixedLayer, setAttr_fixedLayer,
    setStyleW_nextNode, setAttr_nextNode]
  rw [hp]
  dsimp only
  rw [getFixedLayer_of_isSome _ f (by
    simp only [replaceChildW_fixedLayer, setStyleW_fixedLayer, setAttr_fixedLayer]
    exact hfl)]
  dsimp only
  rw [someMatches_all_false env m hm _ _ _ (fun s hs d => hnomatch s hs d)]
  dsimp only
  rw [if_neg (by simp)]
  unfold returnFromFixedLayer returnFromFixedLayerV FixedElementDef.view
  dsimp only
  -- membership of the placeholder (w.nextNode) in the post-move document
  have hconnW : ∀ q : Nat, q ≠ fe.element →
      (q ∈ ((w.dom.replaceChild p w.nextNode fe.element).appendChild f fe.element).conn ↔
        q ∈ (w.dom.replaceChild p w.nextNode fe.element).conn) := by
    intro q hq
    exact appendChild_conn_ne _ _ _ _ hq
  have hphmem : w.nextNode ∈
      ((w.dom.replaceChild p w.nextNode fe.element).appendChild f fe.element).conn := by
    rw [hconnW _ hNe, replaceChild_conn_of_mem _ _ _ _ _ hpc]
    exact Or.inl rfl
  have hfmem : f ∈ (w.dom.replaceChild p w.nextNode fe.element).conn := by
    rw [replaceChild_conn_of_mem _ _ _ _ _ hpc]
    exact Or.inr ⟨hef, hfc⟩
  have helmem : fe.element ∈
      ((w.dom.replaceChild p w.nextNode fe.element).appendChild f fe.element).conn := by
    rw [appendChild_conn_of_mem _ _ _ _ hfmem]
    exact Or.inl rfl
  simp only [appendChildW_dom, replaceChildW_dom, setStyleW_dom, setAttr_dom]
  rw [if_pos hphmem, if_pos helmem]
  simp only [getStyle_appendChildW, getStyle_replaceChildW, getStyle_setStyleW_same]
  rw [if_pos (hzne _)]
  simp only [setStyleW_dom, appendChildW_dom, replaceChildW_dom, setAttr_dom]
  rw [appendChild_parentOf_ne _ _ _ _ hNe, replaceChild_parentOf_new _ _ _ _ hNe]
  dsimp only
  refine ⟨_, rfl, ?_, ?_, ?_⟩
  · simp only [replaceChildW_dom, setStyleW_dom, appendChildW_dom, setAttr_dom]
    exact replaceChild_parentOf_new _ _ _ _ (Ne.symm hNe)
  · simp only [replaceChildW_dom, setStyleW_dom, appendChildW_dom, setAttr_dom]
    have hpmem : p ∈ ((w.dom.replaceChild p w.nextNode fe.element).appendChild
        f fe.element).conn := by
      rw [appendChild_conn_ne _ _ _ _ hep, replaceChild_conn_of_mem _ _ _ _ _ hpc]
      exact Or.inr ⟨hep, hpc⟩
    rw [replaceChild_conn_of_mem _ _ _ _ _ hpmem]
    rintro (h | ⟨h, _⟩)
    · exact hNe h
    · exact h rfl
  · simp only [getStyle_replaceChildW]
    exact getStyle_setStyleW_same _ _ _ _

/-- Witness for `post_transfer_rematch_reverses`: the single tracked
element of `wOverlay` under a matcher that rejects everything. -/
theorem post_transfer_rematch_reverses_witness :
    ∃ w', transferToFixedLayer envNoMatch wOverlay feOverlay 0 stOverlay =
        .ok (w', { feOverlay with placeholder := some wOverlay.nextNode }) ∧
      w'.dom.parentOf feOverlay.element = some 1 ∧
      wOverlay.nextNode ∉ w'.dom.conn ∧
      getStyle w' feOverlay.element "zIndex" = "" :=
  post_transfer_rematch_reverses envNoMatch wOverlay feOverlay 0 stOverlay
    (fun _ _ _ => .ok false) rfl (fun _ _ _ => rfl) 1 3 (by decide) rfl
    (by decide) rfl (by decide) (by decide) (by decide) (by decide)
    (by decide) (by decide) (by decide)

/-- C10: `addElement` registers an untracked element with `*` as its
sole triggering selector (first conjunct — the registration step of
`addElement` is `setupFixedElement_(element, '*')`).  Consequently,
when such an element is transferred and the host matcher is available
and implements the universal selector (`m d e "*" = ok true`), the
post-transfer re-match succeeds and the transfer is never auto-reversed:
the element stays a child of the overlay layer, with its placeholder
holding its original position (second conjunct). -/
theorem addElement_star_never_autoreversed :
    (∀ (w : World) (e : Nat),
      (∀ fe ∈ w.fixedElements, fe.element ≠ e) →
      (setupFixedElement w e "*").fixedElements =
        w.fixedElements ++
          [{ id := "F" ++ toString w.counter, element := e, selectors := ["*"] }]) ∧
    (∀ (env : Env) (w : World) (fe : FixedElementDef) (i : Nat) (st : FeState)
        (m : Dom → Nat → String → Except Nat Bool) (p f : Nat),
      env.matcher = some m →
      (∀ (d : Dom) (e' : Nat), m d e' "*" = .ok true) →
      fe.selectors = ["*"] →
      fe.placeholder = none →
      w.dom.parentOf fe.element = some p →
      w.fixedLayer = some f →
      p ≠ f →
      p ∈ w.dom.conn →
      fe.element ≠ w.nextNode →
      ∃ w', transferToFixedLayer env w fe i st =
          .ok (w', { fe with placeholder := some w.nextNode }) ∧
        w'.dom.parentOf fe.element = some f ∧
        w.nextNode ∈ w'.dom.conn ∧
        w'.dom.parentOf w.nextNode = some p) := by
  constructor
  · intro w e h
    have hf : w.fixedElements.find? (fun fe => fe.element == e) = none := by
      rw [List.find?_eq_none]
      intro fe hfe
      simpa using h fe hfe
    simp [setupFixedElement, hf, setAttr]
  · intro env w fe i st m p f hm hstar hsel hph hp hfl hpf hpc heN
    have hNe : w.nextNode ≠ fe.element := Ne.symm heN
    unfold transferToFixedLayer ensurePlaceholder transferMove
    rw [hp, hfl, if_neg (by exact fun hh => hpf (Option.some.inj hh)), hph]
    dsimp only
    simp only [setStyleW_dom, setAttr_dom, setStyleW_fixedLayer, setAttr_fixedLayer,
      setStyleW_nextNode, setAttr_nextNode]
    rw [hp]
    dsimp only
    rw [getFixedLayer_of_isSome _ f (by
      simp only [replaceChildW_fixedLayer, setStyleW_fixedLayer, setAttr_fixedLayer]
      exact hfl)]
    dsimp only
    rw [hsel]
    rw [someMatches_single_true env m hm _ _ _ (hstar _ _)]
    dsimp only
    rw [if_pos rfl]
    refine ⟨_, rfl, ?_, ?_, ?_⟩
    · simp only [appendChildW_dom, replaceChildW_dom, setStyleW_dom, setAttr_dom]
      exact appendChild_parentOf_same _ _ _
    · simp only [appendChildW_dom, replaceChildW_dom, setStyleW_dom, setAttr_dom]
      rw [appendChild_conn_ne _ _ _ _ hNe, replaceChild_conn_of_mem _ _ _ _ _ hpc]
      exact Or.inl rfl
    · simp only [appendChildW_dom, replaceChildW_dom, setStyleW_dom, setAttr_dom]
      rw [appendChild_parentOf_ne _ _ _ _ hNe]
      exact replaceChild_parentOf_new _ _ _ _ hNe

/-- Witness for `addElement_star_never_autoreversed`: the universal
matcher of `envAllMatch` on the `*`-registered element of `wOverlay`
(as `feStar`). -/
theorem addElement_star_never_autoreversed_witness :
    ∃ w', transferToFixedLayer envAllMatch
        { wOverlay with fixedElements := [feStar] } feStar 0 stOverlay =
        .ok (w', { feStar with placeholder := some wOverlay.nextNode }) ∧
      w'.dom.parentOf feStar.element = some 3 ∧
      wOverlay.nextNode ∈ w'.dom.conn ∧
      w'.dom.parentOf wOverlay.nextNode = some 1 :=
  addElement_star_never_autoreversed.2 envAllMatch
    { wOverlay with fixedElements := [feStar] } feStar 0 stOverlay
    (fun _ _ _ => .ok true) 1 3 rfl (fun _ _ => rfl) rfl rfl (by decide) rfl
    (by decide) (by decide) (by decide)

/-- Witness for `discovery_cap_eleven`: adding a fresh element to an
empty registry yields one entry. -/
theorem discovery_cap_eleven_witness :
    (setupFixedElement (initWorld dom0 1 0 false 3) 7 "*").fixedElements.length =
      (initWorld dom0 1 0 false 3).fixedElements.length + 1 :=
  discovery_cap_eleven.2 (initWorld dom0 1 0 false 3) 7 (by decide)

end AmpFixedLayer
